import Mathlib

/-!
Verification development for the content-credibility analyzer
(`app/analyzer.py`, `app/bias_detection.py`, `app/emotion_analysis.py`,
`app/fact_checker.py`, `app/linguistic_patterns.py`, `app/credibility_score.py`).

Modelling conventions:
* Text is a `List Char`; offsets are character indices, matching Python string
  indexing on the ASCII inputs the analyzer processes.
* Python floats are modelled as exact rationals (`ℚ`); `round` is round-half-to-even.
* The regular expressions in the source are fixed data (the default pattern
  tables).  Each regex family is embedded by a dedicated matcher that follows
  Python `re` semantics (left-to-right scan, leftmost match, ordered
  alternation with backtracking, case-insensitive where `re.IGNORECASE` is set,
  `finditer` resuming at each match end).
* File loading, wall-clock timestamps and URL fetching are outside the core
  and are not modelled; the local claims database, the external API key and
  the random source used by the simulated external API are explicit parameters.
-/

namespace ContentIntegrity

/- The arithmetic of `ℚ` is sealed (`@[irreducible]`) in the library; unseal
it so that concrete scores and confidences evaluate inside `decide`. -/
unseal Rat.add Rat.mul Rat.inv Rat.sub Rat.ofScientific

/-- Text as a list of characters. -/
abbrev Str := List Char

/-- ASCII lowercasing, as Python `str.lower` acts on ASCII text. -/
def lowerChar (c : Char) : Char := c.toLower

/-- Python regex `\w` on ASCII text: letters, digits, underscore. -/
def isWordChar (c : Char) : Bool := c.isAlphanum || c = '_'

/-- Python whitespace (`\s`, `str.split()`, `str.strip()`). -/
def isSpaceChar (c : Char) : Bool :=
  c = ' ' || c = '\t' || c = '\n' || c = '\x0d' || c = '\x0c' || c = '\x0b'

/-- Whether the character at index `i` is a word character (out of range: no). -/
def wordAt (text : Str) (i : Nat) : Bool :=
  match text[i]? with
  | some c => isWordChar c
  | none => false

/-- Python regex `\b`: word boundary at offset `i`. -/
def boundaryAt (text : Str) (i : Nat) : Bool :=
  (if i = 0 then false else wordAt text (i - 1)) != wordAt text i

/-- Case-insensitive literal match of `pat` at offset `p` of `text`. -/
def matchesAtCI (pat : Str) (text : Str) (p : Nat) : Bool :=
  ((text.drop p).take pat.length).map lowerChar == pat.map lowerChar

/-- Length of the maximal run of characters satisfying `f` starting at `p`. -/
def runLen (f : Char → Bool) (text : Str) (p : Nat) : Nat :=
  ((text.drop p).takeWhile f).length

/-- The slice `text[s:e]` as in Python. -/
def sliceStr (text : Str) (s e : Nat) : Str := (text.take e).drop s

/-- Driver shared by the `finditer` embeddings: try a match at every position,
left to right; after a successful match resume at its end (always advancing at
least one character), after a failure resume at the next position. -/
def scanAux (tryAt : Nat → Option Nat) (len : Nat) : Nat → Nat → List (Nat × Nat)
  | 0, _ => []
  | fuel + 1, p =>
    if len < p then []
    else
      match tryAt p with
      | some e => (p, e) :: scanAux tryAt len fuel (max e (p + 1))
      | none => scanAux tryAt len fuel (p + 1)

/-- All matches of `tryAt` over a text of length `len` (the `finditer` loop). -/
def scan (tryAt : Nat → Option Nat) (len : Nat) : List (Nat × Nat) :=
  scanAux tryAt len (len + 1) 0

theorem scanAux_bounds {tryAt : Nat → Option Nat} {len : Nat}
    (h : ∀ p e, p ≤ len → tryAt p = some e → p ≤ e ∧ e ≤ len) :
    ∀ fuel p s e, (s, e) ∈ scanAux tryAt len fuel p → s ≤ e ∧ e ≤ len := by
  intro fuel
  induction fuel with
  | zero => intro p s e hm; simp [scanAux] at hm
  | succ n ih =>
    intro p s e hm
    unfold scanAux at hm
    by_cases hp : len < p
    · simp [hp] at hm
    · simp only [hp, if_false] at hm
      cases htry : tryAt p with
      | some e' =>
        rw [htry] at hm
        rcases List.mem_cons.mp hm with heq | htail
        · obtain ⟨hs, he⟩ := Prod.mk.injEq .. ▸ heq
          cases heq
          exact h p e (Nat.le_of_not_lt hp) htry
        · exact ih _ s e htail
      | none =>
        rw [htry] at hm
        exact ih _ s e hm

/-- Every span produced by `scan` is well-formed and inside the text. -/
theorem scan_bounds {tryAt : Nat → Option Nat} {len : Nat}
    (h : ∀ p e, p ≤ len → tryAt p = some e → p ≤ e ∧ e ≤ len) :
    ∀ s e, (s, e) ∈ scan tryAt len → s ≤ e ∧ e ≤ len := by
  intro s e hm
  exact scanAux_bounds h _ _ s e hm

theorem takeWhileLenLe (f : Char → Bool) : ∀ l : Str, (l.takeWhile f).length ≤ l.length := by
  intro l
  induction l with
  | nil => simp [List.takeWhile]
  | cons c cs ih =>
    unfold List.takeWhile
    cases f c
    · simp
    · simpa using Nat.succ_le_succ ih

theorem matchesAtCI_bounds {pat text : Str} {p : Nat} (hp : p ≤ text.length)
    (h : matchesAtCI pat text p = true) : p + pat.length ≤ text.length := by
  unfold matchesAtCI at h
  have hlen : (((text.drop p).take pat.length).map lowerChar).length
      = (pat.map lowerChar).length := by
    rw [eq_of_beq h]
  simp only [List.length_map, List.length_take, List.length_drop] at hlen
  omega

theorem runLen_le (f : Char → Bool) (text : Str) (p : Nat) (hp : p ≤ text.length) :
    p + runLen f text p ≤ text.length := by
  unfold runLen
  have h1 := takeWhileLenLe f (text.drop p)
  simp only [List.length_drop] at h1
  omega

/-!
### Structured regex patterns

The default pattern tables of the source are fixed regexes.  Each is embedded
as structured data (`Pat`), with a matcher that follows Python `re` semantics.
For the pieces below, Python's backtracking is deterministic in the contexts
where the source uses them (the comments note why), so maximal-run semantics
are faithful.
-/

/-- A building block of one regex alternative. -/
inductive Piece where
  /-- A case-insensitive literal. -/
  | lit (s : Str)
  /-- `\d+`: maximal run of at least one digit (every use in the source is
  followed by a non-digit literal, so backtracking never shortens the run). -/
  | digits1
  /-- `in \d{4}` from the date-anchored claim pattern (`\d{4}` consumes
  exactly four digits). -/
  | inYear4
  /-- `\w+ed` as used in the passive-voice patterns: both occurrences are
  followed by a word boundary or by `' '`, which forces the match to cover a
  maximal word run that ends in `ed` (length at least 3). -/
  | edWord
deriving DecidableEq

/-- One regex alternative: a sequence of pieces. -/
abbrev RAlt := List Piece

/-- Match a sequence of pieces at offset `p`, returning the end offset. -/
def matchPieces (text : Str) : RAlt → Nat → Option Nat
  | [], p => some p
  | .lit s :: rest, p =>
    if matchesAtCI s text p then matchPieces text rest (p + s.length) else none
  | .digits1 :: rest, p =>
    let r := runLen Char.isDigit text p
    if r = 0 then none else matchPieces text rest (p + r)
  | .inYear4 :: rest, p =>
    if matchesAtCI ('i' :: 'n' :: ' ' :: []) text p
        && 4 ≤ runLen Char.isDigit text (p + 3) then
      matchPieces text rest (p + 7)
    else none
  | .edWord :: rest, p =>
    let r := runLen isWordChar text p
    if 3 ≤ r && matchesAtCI ('e' :: 'd' :: []) text (p + r - 2) then
      matchPieces text rest (p + r)
    else none

/-- Total number of alternatives in a list of groups. -/
def altsSize (gs : List (List RAlt)) : Nat := gs.foldl (fun n g => n + g.length) 0

/-- Ordered-alternation matching of a sequence of groups: `alts` are the
remaining alternatives of the current group, `gs` the remaining groups; a
failing continuation backtracks into the next alternative, as Python `re`
does.  The fuel (structural, so that the kernel can evaluate matches) bounds
the recursion depth: every call strictly decreases `alts.length + altsSize gs`,
so the initial fuel chosen in `matchGroups` is never exhausted. -/
def matchSeq (text : Str) : Nat → List (List RAlt) → List RAlt → Nat → Option Nat
  | 0, _, _, _ => none
  | _ + 1, _, [], _ => none
  | fuel + 1, gs, a :: rest, p =>
    match matchPieces text a p with
    | none => matchSeq text fuel gs rest p
    | some e =>
      match gs with
      | [] => some e
      | g' :: gs' =>
        match matchSeq text fuel gs' g' e with
        | some e' => some e'
        | none => matchSeq text fuel gs rest p

/-- Match a sequence of alternation groups at `p`. -/
def matchGroups (text : Str) (groups : List (List RAlt)) (p : Nat) : Option Nat :=
  match groups with
  | [] => some p
  | g :: gs => matchSeq text (g.length + altsSize gs + 1) gs g p

/-- One default regex pattern, in structured form. -/
inductive Pat where
  /-- A sequence of alternation groups; `anchored` for a leading `^`,
  `wb` / `we` for a leading / trailing `\b`. -/
  | seqPat (anchored wb we : Bool) (groups : List (List RAlt))
  /-- `\b(?:w1|w2|...)\b`: whole-word alternation of literals. -/
  | wordAlts (alts : List Str)
deriving DecidableEq

/-- End offset of the first whole-word alternative matching at `p` (the
leading `\b` is checked by the caller; the trailing `\b` per alternative). -/
def wordAltsEnd (text : Str) (p : Nat) : List Str → Option Nat
  | [] => none
  | s :: rest =>
    if matchesAtCI s text p && boundaryAt text (p + s.length) then some (p + s.length)
    else wordAltsEnd text p rest

/-- One match attempt of a structured pattern at offset `p`. -/
def patTryAt (pt : Pat) (text : Str) (p : Nat) : Option Nat :=
  match pt with
  | .seqPat anchored wb we groups =>
    if anchored && p != 0 then none
    else if wb && !boundaryAt text p then none
    else
      match matchGroups text groups p with
      | some e => if we && !boundaryAt text e then none else some e
      | none => none
  | .wordAlts alts =>
    if boundaryAt text p then wordAltsEnd text p alts else none

/-- `re.finditer` for one structured pattern: spans plus `match.group(0)`. -/
def findPat (pt : Pat) (text : Str) : List (Nat × Nat × Str) :=
  (scan (patTryAt pt text) text.length).map (fun m => (m.1, m.2, sliceStr text m.1 m.2))

/-- One match attempt of `\b<term>\b` (IGNORECASE) at `p`. -/
def wholeWordTryAt (term text : Str) (p : Nat) : Option Nat :=
  if boundaryAt text p && matchesAtCI term text p && boundaryAt text (p + term.length) then
    some (p + term.length)
  else none

/-- `re.finditer` of `\b<term>\b` with IGNORECASE (whole-word literal search). -/
def findWholeWord (term text : Str) : List (Nat × Nat) :=
  scan (wholeWordTryAt term text) text.length

/-- `re.finditer` of a plain literal with IGNORECASE (no word boundaries). -/
def findSubstrCI (lit text : Str) : List (Nat × Nat) :=
  scan (fun p => if matchesAtCI lit text p then some (p + lit.length) else none) text.length

/-- `re.search` success of `\bw1\b|\bw2\b|...` inside `ctx` (the bias
detector's context-window suppression checks). -/
def anyWholeWord (ws : List Str) (ctx : Str) : Bool :=
  ws.any (fun w => !(findWholeWord w ctx).isEmpty)

/-- One match attempt of `\b[A-Z]{3,}\b` at `p`: a maximal run of uppercase
letters with non-word neighbours (shorter runs would abut an uppercase letter,
which is a word character, so backtracking inside the run cannot succeed). -/
def capsTryAt (text : Str) (p : Nat) : Option Nat :=
  if 3 ≤ runLen (fun c => c.isUpper) text p
      && !(if p = 0 then false else wordAt text (p - 1))
      && !wordAt text (p + runLen (fun c => c.isUpper) text p) then
    some (p + runLen (fun c => c.isUpper) text p)
  else none

/-- `re.finditer` of `\b[A-Z]{3,}\b` (case-sensitive). -/
def findAllCaps (text : Str) : List (Nat × Nat) := scan (capsTryAt text) text.length

/-- Repetitions of `![ \t]*` starting at `p`: their count and end offset. -/
def bangReps (text : Str) : Nat → Nat → Nat × Nat
  | 0, p => (0, p)
  | fuel + 1, p =>
    if text[p]? = some '!' then
      let q := p + 1 + runLen (fun c => c = ' ' || c = '\t') text (p + 1)
      let ce := bangReps text fuel q
      (ce.1 + 1, ce.2)
    else (0, p)

/-- One match attempt of `!{2,}|(?:![ \t]*){3,}` at `p` (first alternative
preferred; both alternatives greedy). -/
def exclaimTryAt (text : Str) (p : Nat) : Option Nat :=
  if 2 ≤ runLen (fun c => c = '!') text p then some (p + runLen (fun c => c = '!') text p)
  else if 3 ≤ (bangReps text (text.length + 1) p).1 then some (bangReps text (text.length + 1) p).2
  else none

/-- `re.finditer` of `!{2,}|(?:![ \t]*){3,}`. -/
def findExclaim (text : Str) : List (Nat × Nat) := scan (exclaimTryAt text) text.length

/-! ### Bounds facts: every matcher stays inside the text. -/

theorem matchPieces_bounds {text : Str} :
    ∀ (alt : RAlt) (p e : Nat), p ≤ text.length → matchPieces text alt p = some e →
      p ≤ e ∧ e ≤ text.length := by
  intro alt
  induction alt with
  | nil =>
    intro p e hp h
    simp [matchPieces] at h
    omega
  | cons pc rest ih =>
    intro p e hp h
    cases pc with
    | lit s =>
      unfold matchPieces at h
      by_cases hm : matchesAtCI s text p
      · simp only [hm, if_true] at h
        have hb := matchesAtCI_bounds hp hm
        have := ih (p + s.length) e hb h
        omega
      · simp [hm] at h
    | digits1 =>
      unfold matchPieces at h
      by_cases hr : runLen Char.isDigit text p = 0
      · simp [hr] at h
      · simp only [hr, if_false] at h
        have hb := runLen_le Char.isDigit text p hp
        have := ih _ e hb h
        omega
    | inYear4 =>
      unfold matchPieces at h
      by_cases hm : matchesAtCI ('i' :: 'n' :: ' ' :: []) text p
          && 4 ≤ runLen Char.isDigit text (p + 3)
      · simp only [hm, if_true] at h
        have hm1 : matchesAtCI ('i' :: 'n' :: ' ' :: []) text p = true :=
          (Bool.and_eq_true ..).mp hm |>.1
        have hm2 : (4 ≤ runLen Char.isDigit text (p + 3)) :=
          of_decide_eq_true ((Bool.and_eq_true ..).mp hm |>.2)
        have h3 : p + 3 ≤ text.length := by
          have := matchesAtCI_bounds hp hm1
          simpa using this
        have h4 := runLen_le Char.isDigit text (p + 3) h3
        have h7 : p + 7 ≤ text.length := by omega
        have := ih (p + 7) e h7 h
        omega
      · simp [hm] at h
    | edWord =>
      unfold matchPieces at h
      by_cases hc : 3 ≤ runLen isWordChar text p
          && matchesAtCI ('e' :: 'd' :: []) text (p + runLen isWordChar text p - 2)
      · simp only [hc, if_true] at h
        have hb := runLen_le isWordChar text p hp
        have := ih _ e hb h
        omega
      · simp [hc] at h

theorem matchSeq_bounds {text : Str} :
    ∀ (fuel : Nat) (gs : List (List RAlt)) (alts : List RAlt) (p e : Nat),
      p ≤ text.length → matchSeq text fuel gs alts p = some e → p ≤ e ∧ e ≤ text.length := by
  intro fuel
  induction fuel with
  | zero => intro gs alts p e hp h; simp [matchSeq] at h
  | succ n ih =>
    intro gs alts p e hp h
    cases alts with
    | nil => simp [matchSeq] at h
    | cons a rest =>
      unfold matchSeq at h
      cases hm : matchPieces text a p with
      | none => rw [hm] at h; exact ih gs rest p e hp h
      | some e1 =>
        rw [hm] at h
        dsimp only at h
        have hb1 := matchPieces_bounds a p e1 hp hm
        cases gs with
        | nil =>
          cases h
          exact hb1
        | cons g' gs' =>
          dsimp only at h
          cases hs : matchSeq text n gs' g' e1 with
          | some e2 =>
            rw [hs] at h
            cases h
            have := ih gs' g' e1 e hb1.2 hs
            omega
          | none =>
            rw [hs] at h
            exact ih (g' :: gs') rest p e hp h

theorem matchGroups_bounds {text : Str} {groups : List (List RAlt)} {p e : Nat}
    (hp : p ≤ text.length) (h : matchGroups text groups p = some e) :
    p ≤ e ∧ e ≤ text.length := by
  cases groups with
  | nil => simp [matchGroups] at h; omega
  | cons g gs => exact matchSeq_bounds _ gs g p e hp h

theorem wordAltsEnd_bounds {text : Str} {p : Nat} (hp : p ≤ text.length) :
    ∀ (alts : List Str) (e : Nat), wordAltsEnd text p alts = some e →
      p ≤ e ∧ e ≤ text.length := by
  intro alts
  induction alts with
  | nil => intro e h; simp [wordAltsEnd] at h
  | cons s rest ih =>
    intro e h
    unfold wordAltsEnd at h
    by_cases hc : matchesAtCI s text p && boundaryAt text (p + s.length)
    · simp only [hc, if_true] at h
      cases h
      have := matchesAtCI_bounds hp ((Bool.and_eq_true ..).mp hc).1
      omega
    · simp only [hc, if_false] at h
      exact ih e h

theorem patTryAt_bounds (pt : Pat) (text : Str) :
    ∀ p e, p ≤ text.length → patTryAt pt text p = some e → p ≤ e ∧ e ≤ text.length := by
  intro p e hp h
  cases pt with
  | seqPat anchored wb we groups =>
    unfold patTryAt at h
    by_cases h1 : anchored && p != 0
    · simp [h1] at h
    · simp only [h1, if_false] at h
      by_cases h2 : wb && !boundaryAt text p
      · simp [h2] at h
      · simp only [h2, if_false] at h
        cases hg : matchGroups text groups p with
        | none => rw [hg] at h; cases h
        | some e1 =>
          rw [hg] at h
          by_cases h3 : we && !boundaryAt text e1
          · simp [h3] at h
          · simp only [h3, if_false] at h
            cases h
            exact matchGroups_bounds hp hg
  | wordAlts alts =>
    unfold patTryAt at h
    by_cases hb : boundaryAt text p
    · simp only [hb, if_true] at h
      exact wordAltsEnd_bounds hp alts e h
    · simp [hb] at h

theorem findPat_bounds (pt : Pat) (text : Str) :
    ∀ m ∈ findPat pt text, m.1 ≤ m.2.1 ∧ m.2.1 ≤ text.length := by
  intro m hm
  unfold findPat at hm
  obtain ⟨⟨s, e⟩, hmem, hEq⟩ := List.mem_map.mp hm
  have := scan_bounds (patTryAt_bounds pt text) s e hmem
  cases hEq
  simpa using this

theorem findWholeWord_bounds (term text : Str) :
    ∀ m ∈ findWholeWord term text, m.1 ≤ m.2 ∧ m.2 ≤ text.length := by
  intro m hm
  have h : ∀ p e, p ≤ text.length → wholeWordTryAt term text p = some e →
      p ≤ e ∧ e ≤ text.length := by
    intro p e hp h
    unfold wholeWordTryAt at h
    by_cases hc : boundaryAt text p && matchesAtCI term text p
        && boundaryAt text (p + term.length)
    · simp only [hc, if_true] at h
      cases h
      have := matchesAtCI_bounds hp ((Bool.and_eq_true ..).mp ((Bool.and_eq_true ..).mp hc).1).2
      omega
    · simp [hc] at h
  exact scan_bounds h m.1 m.2 hm

theorem findSubstrCI_bounds (lit text : Str) :
    ∀ m ∈ findSubstrCI lit text, m.1 ≤ m.2 ∧ m.2 ≤ text.length := by
  intro m hm
  have h : ∀ p e, p ≤ text.length →
      (if matchesAtCI lit text p then some (p + lit.length) else none) = some e →
      p ≤ e ∧ e ≤ text.length := by
    intro p e hp h
    by_cases hc : matchesAtCI lit text p
    · simp only [hc, if_true] at h
      cases h
      have := matchesAtCI_bounds hp hc
      omega
    · simp [hc] at h
  exact scan_bounds h m.1 m.2 hm

theorem findAllCaps_bounds (text : Str) :
    ∀ m ∈ findAllCaps text, m.1 ≤ m.2 ∧ m.2 ≤ text.length := by
  intro m hm
  have h : ∀ p e, p ≤ text.length → capsTryAt text p = some e →
      p ≤ e ∧ e ≤ text.length := by
    intro p e hp h
    unfold capsTryAt at h
    split at h <;> split at h <;>
      first
        | (cases h
           have := runLen_le (fun c => c.isUpper) text p hp
           omega)
        | cases h
  exact scan_bounds h m.1 m.2 hm

theorem bangReps_bounds (text : Str) :
    ∀ (fuel p : Nat), p ≤ text.length →
      p ≤ (bangReps text fuel p).2 ∧ (bangReps text fuel p).2 ≤ text.length := by
  intro fuel
  induction fuel with
  | zero => intro p hp; simp [bangReps]; omega
  | succ n ih =>
    intro p hp
    unfold bangReps
    split
    · next hc =>
      have hplt : p < text.length := (List.getElem?_eq_some.mp hc).1
      have hq : p + 1 + runLen (fun c => c = ' ' || c = '\t') text (p + 1) ≤ text.length :=
        runLen_le _ text (p + 1) hplt
      have := ih (p + 1 + runLen (fun c => c = ' ' || c = '\t') text (p + 1)) hq
      dsimp only
      constructor
      · omega
      · exact this.2
    · dsimp only
      omega

theorem findExclaim_bounds (text : Str) :
    ∀ m ∈ findExclaim text, m.1 ≤ m.2 ∧ m.2 ≤ text.length := by
  intro m hm
  have h : ∀ p e, p ≤ text.length → exclaimTryAt text p = some e →
      p ≤ e ∧ e ≤ text.length := by
    intro p e hp h
    unfold exclaimTryAt at h
    split at h
    · cases h
      have := runLen_le (fun c => c = '!') text p hp
      omega
    · split at h
      · cases h
        exact bangReps_bounds text (text.length + 1) p hp
      · cases h
  exact scan_bounds h m.1 m.2 hm

/-! ### Data model -/

/-- Shorthand for string literals as character lists. -/
def str (s : String) : Str := s.data

/-- Python `round` on exact rationals: round half to even.  (`Rat.floor` is
used rather than `⌊·⌋` so that the kernel can evaluate concrete scores.) -/
def pyRound (q : ℚ) : ℤ :=
  if q - Rat.floor q < 1/2 then Rat.floor q
  else if 1/2 < q - Rat.floor q then Rat.floor q + 1
  else if Rat.floor q % 2 = 0 then Rat.floor q else Rat.floor q + 1

/-- Python `round(q, 2)`. -/
def round2 (q : ℚ) : ℚ := (pyRound (q * 100) : ℚ) / 100

/-- Python `min` on two rationals (spelled out so the kernel can evaluate it). -/
def qmin (a b : ℚ) : ℚ := if a ≤ b then a else b

/-- Python `max` on two rationals. -/
def qmax (a b : ℚ) : ℚ := if b ≤ a then a else b

/-- Python `abs` on a rational. -/
def qabs (a : ℚ) : ℚ := if a < 0 then -a else a

theorem qmin_eq (a b : ℚ) : qmin a b = min a b := (min_def a b).symm

theorem qmax_eq (a b : ℚ) : qmax a b = max a b := by
  unfold qmax
  rcases le_total a b with h | h
  · rcases lt_or_eq_of_le h with h' | h'
    · rw [if_neg (not_le.mpr h'), max_eq_right h]
    · subst h'; simp
  · rw [if_pos h, max_eq_left h]

theorem qabs_eq (a : ℚ) : qabs a = |a| := by
  unfold qabs
  rcases lt_or_le a 0 with h | h
  · rw [if_pos h, abs_of_neg h]
  · rw [if_neg (not_lt.mpr h), abs_of_nonneg h]

/-- Python `str.split()`: split on whitespace runs, dropping empties. -/
def splitWsAux : Nat → Str → List Str
  | 0, _ => []
  | _, [] => []
  | fuel + 1, c :: cs =>
    if isSpaceChar c then splitWsAux fuel cs
    else (c :: cs.takeWhile (fun d => !isSpaceChar d)) ::
      splitWsAux fuel (cs.dropWhile (fun d => !isSpaceChar d))

def splitWs (t : Str) : List Str := splitWsAux (t.length + 1) t

/-- `len(text.split())`, the word count used for all density metrics. -/
def wordCount (text : Str) : Nat := (splitWs text).length

/-- Python `str.strip()`. -/
def stripWs (s : Str) : Str :=
  ((s.dropWhile isSpaceChar).reverse.dropWhile isSpaceChar).reverse

/-- An issue record `{type, description, confidence, spans}`. -/
structure Issue where
  type : Str
  description : Str
  confidence : ℚ
  spans : List (Nat × Nat)
deriving DecidableEq

/-! ### BiasDetector (`app/bias_detection.py`) -/

/-- Default `bias_phrases["loaded_language"]`. -/
def loadedLanguagePhrases : List Str :=
  [str "obviously", str "clearly", str "without a doubt", str "certainly",
   str "undoubtedly", str "definitely", str "absolutely", str "everyone knows",
   str "of course", str "naturally", str "inevitably", str "indisputably"]

/-- Default `bias_phrases["subjective_qualifiers"]`. -/
def subjectiveQualifierPhrases : List Str :=
  [str "best", str "worst", str "terrible", str "excellent", str "horrible",
   str "amazing", str "awful", str "extraordinary", str "wonderful", str "appalling"]

/-- Default `bias_phrases["generalization"]`. -/
def generalizationPhrases : List Str :=
  [str "all", str "none", str "every", str "always", str "never", str "everyone",
   str "nobody", str "everywhere", str "anywhere", str "throughout history"]

/-- Default `bias_phrases["exaggeration"]`. -/
def exaggerationPhrases : List Str :=
  [str "countless", str "endless", str "infinite", str "unprecedented", str "massive",
   str "monumental", str "epic", str "colossal", str "gigantic", str "staggering"]

/-- Default `political_bias_terms["left_leaning"]`. -/
def leftLeaningTerms : List Str :=
  [str "progressive", str "liberal", str "social justice", str "diversity",
   str "equity", str "inclusion", str "structural racism", str "climate crisis",
   str "reproductive rights", str "universal healthcare"]

/-- Default `political_bias_terms["right_leaning"]`. -/
def rightLeaningTerms : List Str :=
  [str "conservative", str "traditional values", str "individual liberty",
   str "free market", str "fiscal responsibility", str "religious freedom",
   str "limited government", str "family values", str "immigration control"]

/-- `BiasDetector._detect_loaded_language`. -/
def detectLoadedLanguage (text : Str) : List Issue :=
  loadedLanguagePhrases.flatMap (fun phrase =>
    (findWholeWord phrase text).map (fun m =>
      { type := str "loaded_language"
        description := str "Loaded language: \x27" ++ sliceStr text m.1 m.2 ++ str "\x27"
        confidence := 8/10
        spans := [m] }))

/-- The suppression regex `\bnot\b|\bexcept\b|\bbut\b|\bsome\b|\bfew\b|\bmany\b`. -/
def generalizationSuppressors : List Str :=
  [str "not", str "except", str "but", str "some", str "few", str "many"]

/-- `BiasDetector._detect_generalizations` (the context window is the slice
`text[max(0, start-30) : min(len(text), end+30)]`; `Nat` subtraction already
clamps at 0). -/
def detectGeneralizations (text : Str) : List Issue :=
  generalizationPhrases.flatMap (fun phrase =>
    (findWholeWord phrase text).filterMap (fun m =>
      let ctx := sliceStr text (m.1 - 30) (min text.length (m.2 + 30))
      if anyWholeWord generalizationSuppressors ctx then none
      else some
        { type := str "generalization"
          description := str "Generalization: \x27" ++ sliceStr text m.1 m.2 ++ str "\x27"
          confidence := 7/10
          spans := [m] }))

/-- `BiasDetector._detect_exaggerations`. -/
def detectExaggerations (text : Str) : List Issue :=
  exaggerationPhrases.flatMap (fun phrase =>
    (findWholeWord phrase text).map (fun m =>
      { type := str "exaggeration"
        description := str "Exaggerated language: \x27" ++ sliceStr text m.1 m.2 ++ str "\x27"
        confidence := 75/100
        spans := [m] }))

/-- The attribution regex `\bsaid\b|\bstated\b|\bclaimed\b|\baccording to\b|\bbelieves\b|\bthinks\b`. -/
def subjectiveSuppressors : List Str :=
  [str "said", str "stated", str "claimed", str "according to", str "believes", str "thinks"]

/-- `BiasDetector._detect_subjective_language` (context is the preceding
40 characters, `text[max(0, start-40) : start]`). -/
def detectSubjectiveLanguage (text : Str) : List Issue :=
  subjectiveQualifierPhrases.flatMap (fun phrase =>
    (findWholeWord phrase text).filterMap (fun m =>
      let ctx := sliceStr text (m.1 - 40) m.1
      if anyWholeWord subjectiveSuppressors ctx then none
      else some
        { type := str "subjective_language"
          description := str "Subjective language presented as fact: \x27"
            ++ sliceStr text m.1 m.2 ++ str "\x27"
          confidence := 65/100
          spans := [m] }))

/-- `_detect_political_bias`'s result `{leaning, confidence, spans}`. -/
structure PoliticalBias where
  leaning : Str
  confidence : ℚ
  spans : List (Nat × Nat)
deriving DecidableEq

/-- All whole-word matches of the left-leaning terms, in term order. -/
def leftMatches (text : Str) : List (Nat × Nat) :=
  leftLeaningTerms.flatMap (fun t => findWholeWord t text)

/-- All whole-word matches of the right-leaning terms, in term order. -/
def rightMatches (text : Str) : List (Nat × Nat) :=
  rightLeaningTerms.flatMap (fun t => findWholeWord t text)

/-- `BiasDetector._detect_political_bias`. -/
def detect_political_bias (text : Str) : PoliticalBias :=
  let lm := leftMatches text
  let rm := rightMatches text
  let lc := lm.length
  let rc := rm.length
  let total := lc + rc
  if total > 0 then
    if total ≥ 3 then
      if lc > rc * 2 then
        { leaning := str "left"
          confidence := qmin (9/10) (1/2 + ((lc : ℚ) - rc) / total * (1/2))
          spans := lm }
      else if rc > lc * 2 then
        { leaning := str "right"
          confidence := qmin (9/10) (1/2 + ((rc : ℚ) - lc) / total * (1/2))
          spans := rm }
      else if qabs ((lc : ℚ) - rc) / total > 3/10 then
        if lc > rc then
          { leaning := str "center-left", confidence := 6/10, spans := lm }
        else
          { leaning := str "center-right", confidence := 6/10, spans := rm }
      else
        { leaning := str "center", confidence := 7/10, spans := lm ++ rm }
    else
      if lc > rc then
        { leaning := str "slight-left", confidence := 4/10, spans := lm }
      else if rc > lc then
        { leaning := str "slight-right", confidence := 4/10, spans := rm }
      else
        { leaning := str "neutral", confidence := 0, spans := [] }
  else
    { leaning := str "neutral", confidence := 0, spans := [] }

/-- The bias detector's metadata dictionary. -/
structure BiasMeta where
  bias_types_detected : List Str
  political_leaning : Option Str
  political_leaning_confidence : ℚ
  overall_bias_level : ℚ
deriving DecidableEq

/-- The bias detector's result `{issues, metadata}`. -/
structure BiasResult where
  issues : List Issue
  metadata : BiasMeta
deriving DecidableEq

/-- `BiasDetector.detect_bias`. -/
def detect_bias (text : Str) : BiasResult :=
  let loaded := detectLoadedLanguage text
  let gener := detectGeneralizations text
  let exagg := detectExaggerations text
  let subj := detectSubjectiveLanguage text
  let pol := detect_political_bias text
  let issues := loaded ++ gener ++ exagg ++ subj
    ++ (if pol.leaning ≠ str "neutral" then
        [{ type := str "political_bias"
           description := str "Political bias detected (" ++ pol.leaning ++ str "-leaning)"
           confidence := pol.confidence
           spans := pol.spans }]
      else [])
  let types := (if loaded ≠ [] then [str "loaded_language"] else [])
    ++ (if gener ≠ [] then [str "generalizations"] else [])
    ++ (if exagg ≠ [] then [str "exaggerations"] else [])
    ++ (if subj ≠ [] then [str "subjective_language"] else [])
    ++ (if pol.leaning ≠ str "neutral" then [str "political_bias"] else [])
  let wc := wordCount text
  let bias_density := if wc > 0 then (issues.length : ℚ) / ((wc : ℚ) / 100) else 0
  { issues := issues
    metadata :=
      { bias_types_detected := types
        political_leaning := if pol.leaning ≠ str "neutral" then some pol.leaning else none
        political_leaning_confidence := if pol.leaning ≠ str "neutral" then pol.confidence else 0
        overall_bias_level := round2 (qmin 1 (bias_density / 5)) } }

/-! ### EmotionAnalyzer (`app/emotion_analysis.py`) -/

/-- Default `emotional_triggers`, in dictionary (insertion) order. -/
def emotionalTriggers : List (Str × List Str) :=
  [(str "fear",
    [str "terrifying", str "horrific", str "dangerous", str "deadly", str "alarming",
     str "frightening", str "scary", str "threat", str "panic", str "disaster", str "crisis"]),
   (str "anger",
    [str "outrageous", str "shocking", str "appalling", str "disgusting", str "infuriating",
     str "scandalous", str "offensive", str "betrayal", str "corrupt", str "unjust"]),
   (str "joy",
    [str "amazing", str "incredible", str "wonderful", str "revolutionary", str "breakthrough",
     str "miraculous", str "astonishing", str "life-changing", str "extraordinary"]),
   (str "sadness",
    [str "heartbreaking", str "devastating", str "tragic", str "depressing", str "sorrowful",
     str "painful", str "miserable", str "grim", str "hopeless"])]

/-- Default `urgency_patterns` (plain literal regexes). -/
def urgencyPatterns : List Str :=
  [str "act now", str "limited time", str "urgent", str "breaking",
   str "time is running out", str "don\x27t wait", str "last chance", str "immediately",
   str "soon", str "before it\x27s too late", str "while supplies last",
   str "exclusive offer", str "today only", str "deadline"]

/-- Default `fear_patterns` (plain literal regexes). -/
def fearPatterns : List Str :=
  [str "you can\x27t afford to miss", str "warning", str "danger", str "risk",
   str "what you don\x27t know", str "might be killing you", str "hidden dangers",
   str "protect yourself", str "fear of missing out", str "fomo",
   str "you will regret", str "devastating consequences"]

/-- The emotion analyzer's metadata dictionary. -/
structure EmotionMeta where
  emotion_types_detected : List Str
  dominant_emotion : Option Str
  emotional_manipulation_score : ℚ
  emotional_intensity : ℚ
deriving DecidableEq

/-- The emotion analyzer's result `{issues, metadata}`. -/
structure EmotionResult where
  issues : List Issue
  metadata : EmotionMeta
deriving DecidableEq

/-- `max(emotion_counts.items(), key=lambda x: x[1])`: the first entry with the
highest count (Python `max` keeps the first of equal maxima). -/
def dominantOf (counts : List (Str × Nat)) : Option Str :=
  (counts.foldl (fun best kv =>
    match best with
    | none => some kv
    | some b => if kv.2 > b.2 then some kv else best) none).map (fun kv => kv.1)

/-- `EmotionAnalyzer.detect_manipulation`. -/
def detect_manipulation (text : Str) : EmotionResult :=
  let estep := emotionalTriggers.foldl (fun acc tc =>
      let ms := tc.2.flatMap (fun t => findWholeWord t text)
      if ms.isEmpty then acc
      else
        (acc.1 ++ [tc.1], acc.2.1 ++ [(tc.1, ms.length)],
          acc.2.2 ++ [{ type := str "emotional_trigger"
                        description := str "Emotional language (" ++ tc.1 ++ str ")"
                        confidence := 75/100
                        spans := ms }]))
    (([] : List Str), ([] : List (Str × Nat)), ([] : List Issue))
  let types0 := estep.1
  let counts := estep.2.1
  let issues0 := estep.2.2
  let dominant := dominantOf counts
  let urgency := urgencyPatterns.flatMap (fun pt => findSubstrCI pt text)
  let types1 := types0 ++ (if urgency.isEmpty then [] else [str "urgency"])
  let issues1 := issues0 ++ (if urgency.isEmpty then [] else
    [{ type := str "urgency_manipulation"
       description := str "Creates artificial sense of urgency"
       confidence := 8/10
       spans := urgency }])
  let fear := fearPatterns.flatMap (fun pt => findSubstrCI pt text)
  let types2 := types1 ++ (if !fear.isEmpty && !types1.contains (str "fear") then [str "fear"] else [])
  let issues2 := issues1 ++ (if fear.isEmpty then [] else
    [{ type := str "fear_manipulation"
       description := str "Uses fear-based manipulation"
       confidence := 85/100
       spans := fear }])
  let capsAll := (findAllCaps text).filter (fun m => m.2 - m.1 > 5)
  let issues3 := issues2 ++ (if capsAll.isEmpty then [] else
    [{ type := str "typography_manipulation"
       description := str "Using ALL CAPS for emphasis (shouting)"
       confidence := 7/10
       spans := capsAll }])
  let excl := findExclaim text
  let issues4 := issues3 ++ (if excl.isEmpty then [] else
    [{ type := str "typography_manipulation"
       description := str "Excessive exclamation marks"
       confidence := 75/100
       spans := excl }])
  let wc := wordCount text
  let manipulation_density := if wc > 0 then (issues4.length : ℚ) / ((wc : ℚ) / 100) else 0
  let total_triggers := (counts.map (fun kv => kv.2)).sum
  let trigger_density := if wc > 0 then (total_triggers : ℚ) / ((wc : ℚ) / 100) else 0
  let intensity := (trigger_density / 5) * (7/10) + ((types2.length : ℚ) / 4) * (3/10)
  { issues := issues4
    metadata :=
      { emotion_types_detected := types2
        dominant_emotion := dominant
        emotional_manipulation_score := round2 (qmin 1 (manipulation_density / 3))
        emotional_intensity := round2 (qmin 1 intensity) } }

/-! ### PatternAnalyzer (`app/linguistic_patterns.py`) -/

/-- Alternation group of plain literals. -/
def litAlts (ss : List String) : List RAlt := ss.map (fun s => [Piece.lit s.data])

/-- A single-literal group. -/
def litG (s : String) : List RAlt := [[Piece.lit s.data]]

/-- Default `clickbait_patterns`, in order.  The original regexes are noted on
each entry. -/
def clickbaitPatterns : List Pat :=
  [ -- the first entry embeds the regex with the won-t-believe alternation
   Pat.seqPat false false false
     [litAlts ["you won\x27t believe", "mind blowing", "jaw dropping"]],
   -- ^\d+ (?:things|ways|reasons|facts|tips|tricks|ideas|secrets)
   Pat.seqPat true false false
     [[[Piece.digits1, Piece.lit (str " ")]],
      litAlts ["things", "ways", "reasons", "facts", "tips", "tricks", "ideas", "secrets"]],
   -- (?:number \d+|the last one) (?:will|could|can|may) (?:shock|surprise|amaze) you
   Pat.seqPat false false false
     [[[Piece.lit (str "number "), Piece.digits1], [Piece.lit (str "the last one")]],
      litG " ", litAlts ["will", "could", "can", "may"],
      litG " ", litAlts ["shock", "surprise", "amaze"], litG " you"],
   -- what happens next (?:will|could|can|may) (?:shock|surprise|amaze) you
   Pat.seqPat false false false
     [litG "what happens next ", litAlts ["will", "could", "can", "may"],
      litG " ", litAlts ["shock", "surprise", "amaze"], litG " you"],
   -- (?:doctors|experts|scientists) (?:hate|are afraid of) (?:this|him|her|them)
   Pat.seqPat false false false
     [litAlts ["doctors", "experts", "scientists"], litG " ",
      litAlts ["hate", "are afraid of"], litG " ",
      litAlts ["this", "him", "her", "them"]],
   -- one (?:simple|weird|strange) trick
   Pat.seqPat false false false
     [litG "one ", litAlts ["simple", "weird", "strange"], litG " trick"],
   -- this (?:one|simple|weird|strange) trick
   Pat.seqPat false false false
     [litG "this ", litAlts ["one", "simple", "weird", "strange"], litG " trick"],
   -- (?:shocking|surprising) (?:discovery|result|trick|tip|secret|fact)
   Pat.seqPat false false false
     [litAlts ["shocking", "surprising"], litG " ",
      litAlts ["discovery", "result", "trick", "tip", "secret", "fact"]],
   -- (?:never|you should never|when not to) (?:do|try|attempt)
   Pat.seqPat false false false
     [litAlts ["never", "you should never", "when not to"], litG " ",
      litAlts ["do", "try", "attempt"]],
   -- (?:this is why|the reason why|here's why)
   Pat.seqPat false false false
     [litAlts ["this is why", "the reason why", "here\x27s why"]],
   -- (?:finally revealed|the truth about)
   Pat.seqPat false false false [litAlts ["finally revealed", "the truth about"]],
   -- (?:secret|hidden) (?:trick|method|way|formula)
   Pat.seqPat false false false
     [litAlts ["secret", "hidden"], litG " ",
      litAlts ["trick", "method", "way", "formula"]]]

/-- Default `propaganda_techniques`, in dictionary order. -/
def propagandaTechniques : List (Str × List Pat) :=
  [(str "name_calling",
    [Pat.seqPat false false false
      [litAlts ["libtard", "snowflake", "sheep", "nazi", "fascist", "communist",
                "socialist", "radical", "extremist", "terrorist"]]]),
   (str "glittering_generalities",
    [Pat.seqPat false false false
      [litAlts ["freedom", "liberty", "justice", "patriotic", "patriot",
                "american values", "family values"]]]),
   (str "bandwagon",
    [Pat.seqPat false false false
      [litAlts ["everyone is", "everybody is", "everyone knows", "everybody knows"]],
     Pat.seqPat false false false
      [litAlts ["most people", "the majority", "overwhelming majority"]]]),
   (str "testimonial",
    [Pat.seqPat false false false
      [litAlts ["according to experts", "experts say", "scientists confirm", "science says"]]]),
   (str "plain_folks",
    [Pat.seqPat false false false
      [litAlts ["ordinary people", "regular folks", "hardworking americans", "common sense"]]]),
   (str "card_stacking",
    [Pat.seqPat false false false
      [litAlts ["on the other hand", "let me be clear", "make no mistake"]]]),
   (str "transfer",
    [Pat.seqPat false false false
      [litAlts ["like the nazis", "communist-style", "stalinesque", "hitler-like"]]])]

/-- Default `hedging_language` patterns (`\b(?:...)\b`). -/
def hedgingPatterns : List Pat :=
  [Pat.wordAlts ((["may", "might", "could", "possibly", "perhaps", "seems",
      "appears", "likely", "unlikely"] : List String).map (fun s => s.data)),
   Pat.wordAlts ((["some", "sometimes", "often", "usually", "generally",
      "frequently"] : List String).map (fun s => s.data)),
   Pat.wordAlts ((["alleged", "supposedly", "purportedly", "reportedly",
      "claimed"] : List String).map (fun s => s.data)),
   Pat.wordAlts ((["sort of", "kind of", "relatively", "comparatively",
      "more or less"] : List String).map (fun s => s.data))]

/-- Default `sensationalist_patterns` (`\b(?:...)\b`). -/
def sensationalistPatterns : List Pat :=
  [Pat.wordAlts ((["bombshell", "explosive", "destroying", "obliterates",
      "annihilates", "devastating"] : List String).map (fun s => s.data)),
   Pat.wordAlts ((["insane", "incredible", "unbelievable", "stunning",
      "mind-blowing", "jaw-dropping"] : List String).map (fun s => s.data)),
   Pat.wordAlts ((["game-changing", "earth-shattering", "revolutionary",
      "ground-breaking"] : List String).map (fun s => s.data)),
   Pat.wordAlts ((["massive", "enormous", "gigantic", "colossal",
      "record-breaking", "unprecedented"] : List String).map (fun s => s.data)),
   Pat.wordAlts ((["catastrophic", "disastrous", "horrific", "terrifying",
      "apocalyptic", "extinction"] : List String).map (fun s => s.data)),
   Pat.wordAlts ((["meltdown", "breaking news", "urgent", "emergency",
      "critical", "crucial"] : List String).map (fun s => s.data))]

/-- The auxiliary-verb alternation shared by the two passive-voice patterns. -/
def passiveAux : List RAlt := litAlts ["is", "are", "was", "were", "be", "been", "being"]

/-- The passive-voice patterns:
`\b(?:is|...|being) (?:\w+ed|(?:brought|...|won)) by\b` and
`\b(?:is|...|being) (?:\w+ed)\b`. -/
def passivePatterns : List Pat :=
  [Pat.seqPat false true true
    [passiveAux, litG " ",
     ([Piece.edWord] :: litAlts ["brought", "caught", "done", "found", "given", "held",
        "kept", "laid", "led", "left", "lost", "made", "paid", "put", "read", "said",
        "sent", "shown", "sold", "thought", "told", "won"]),
     litG " by"],
   Pat.seqPat false true true [passiveAux, litG " ", [[Piece.edWord]]]]

/-- Values stored in a pattern match's info dictionary. -/
inductive InfoVal where
  | s (v : Str)
  | p (v : Pat)
deriving DecidableEq

/-- A pattern match as stored by `PatternAnalyzer._detect_patterns`:
`(match.start(), match.end(), {"text": match.group(0), "pattern": pattern})`. -/
structure PMatch where
  start : Nat
  stop : Nat
  info : List (Str × InfoVal)
deriving DecidableEq

/-- Python `dict.get(k)` on the info dictionary (`None` when absent). -/
def dictGet (d : List (Str × InfoVal)) (k : Str) : Option InfoVal :=
  (d.find? (fun kv => kv.1 == k)).map (fun kv => kv.2)

/-- `PatternAnalyzer._detect_patterns`, parametric in the regex engine `fd`. -/
def detect_patterns_with (fd : Pat → Str → List (Nat × Nat × Str)) (text : Str)
    (patterns : List Pat) : List PMatch :=
  patterns.flatMap (fun pat =>
    (fd pat text).map (fun m =>
      { start := m.1, stop := m.2.1
        info := [(str "text", InfoVal.s m.2.2), (str "pattern", InfoVal.p pat)] }))

/-- `technique.replace('_', ' ')`. -/
def underscoreToSpace (s : Str) : Str := s.map (fun c => if c = '_' then ' ' else c)

/-- The pattern analyzer's metadata dictionary. -/
structure PatternMeta where
  patterns_detected : List Str
  clickbait_level : ℚ
  propaganda_level : ℚ
  sensationalism_level : ℚ
  hedging_level : ℚ
deriving DecidableEq

/-- The pattern analyzer's result `{issues, metadata}`. -/
structure PatternResult where
  issues : List Issue
  metadata : PatternMeta
deriving DecidableEq

/-- `PatternAnalyzer._detect_passive_voice`. -/
def detect_passive_voice (text : Str) : List (Nat × Nat) :=
  passivePatterns.flatMap (fun p => (findPat p text).map (fun m => (m.1, m.2.1)))

/-- `PatternAnalyzer.analyze_patterns`, parametric in the regex engine used by
`_detect_patterns` (instantiated with `findPat` below). -/
def analyze_patterns_core (fd : Pat → Str → List (Nat × Nat × Str)) (text : Str) :
    PatternResult :=
  let wc := wordCount text
  let cb := detect_patterns_with fd text clickbaitPatterns
  let cbIssues : List Issue := if cb.isEmpty then [] else
    [{ type := str "clickbait"
       description := str "Clickbait language detected"
       confidence := 85/100
       spans := cb.map (fun m => (m.start, m.stop)) }]
  let cbLevel : ℚ := if cb.isEmpty then 0 else
    qmin 1 ((if wc > 0 then (cb.length : ℚ) / ((wc : ℚ) / 100) else 0) / 2)
  let pstep := propagandaTechniques.foldl (fun acc tp =>
      let tm := detect_patterns_with fd text tp.2
      if tm.isEmpty then acc else (acc.1 ++ tm, acc.2 ++ [(tp.1, tm.length)]))
    (([] : List PMatch), ([] : List (Str × Nat)))
  let propaganda_matches := pstep.1
  let propaganda_types := pstep.2
  let pgIssues : List Issue := if propaganda_matches.isEmpty then [] else
    propaganda_types.map (fun tc =>
      { type := str "propaganda_technique"
        description := str "Propaganda technique detected: " ++ underscoreToSpace tc.1
        confidence := 75/100
        spans := (propaganda_matches.filter (fun m =>
            dictGet m.info (str "technique") == some (InfoVal.s tc.1))).map
          (fun m => (m.start, m.stop)) })
  let pgLevel : ℚ := if propaganda_matches.isEmpty then 0 else
    qmin 1 ((if wc > 0 then (propaganda_matches.length : ℚ) / ((wc : ℚ) / 100) else 0) / 2)
  let sn := detect_patterns_with fd text sensationalistPatterns
  let snIssues : List Issue := if sn.isEmpty then [] else
    [{ type := str "sensationalist_language"
       description := str "Sensationalist language detected"
       confidence := 8/10
       spans := sn.map (fun m => (m.start, m.stop)) }]
  let snLevel : ℚ := if sn.isEmpty then 0 else
    qmin 1 ((if wc > 0 then (sn.length : ℚ) / ((wc : ℚ) / 100) else 0) / 3)
  let hm := detect_patterns_with fd text hedgingPatterns
  let hedging_density : ℚ := if wc > 0 then (hm.length : ℚ) / ((wc : ℚ) / 100) else 0
  let hgLevel : ℚ := if wc > 0 then qmin 1 (hedging_density / 5) else 0
  let hgIssues : List Issue := if wc > 0 ∧ hedging_density > 5 then
      [{ type := str "excessive_hedging"
         description := str "Excessive use of hedging language"
         confidence := 7/10
         spans := hm.map (fun m => (m.start, m.stop)) }]
    else []
  let pv := detect_passive_voice text
  let pvIssues : List Issue := if wc > 0 ∧ (if wc > 0 then (pv.length : ℚ) / ((wc : ℚ) / 100) else 0) > 8 then
      [{ type := str "excessive_passive_voice"
         description := str "Excessive use of passive voice"
         confidence := 6/10
         spans := pv }]
    else []
  let detected := (if cb.isEmpty then [] else [str "clickbait"])
    ++ (if propaganda_matches.isEmpty then [] else [str "propaganda_techniques"])
    ++ (if sn.isEmpty then [] else [str "sensationalist_language"])
    ++ (if wc > 0 ∧ hedging_density > 5 then [str "excessive_hedging"] else [])
    ++ (if wc > 0 ∧ (if wc > 0 then (pv.length : ℚ) / ((wc : ℚ) / 100) else 0) > 8 then
        [str "excessive_passive_voice"] else [])
  { issues := cbIssues ++ pgIssues ++ snIssues ++ hgIssues ++ pvIssues
    metadata :=
      { patterns_detected := detected
        clickbait_level := cbLevel
        propaganda_level := pgLevel
        sensationalism_level := snLevel
        hedging_level := hgLevel } }

/-- `PatternAnalyzer.analyze_patterns` with the concrete regex engine. -/
def analyze_patterns (text : Str) : PatternResult := analyze_patterns_core findPat text

/-! ### FactChecker (`app/fact_checker.py`) -/

/-- Sentence terminator class `[.!?]`. -/
def isSentEnd (c : Char) : Bool := c = '.' || c = '!' || c = '?'

/-- The lazy tail `.*?[.!?]`: scan from `q` for the first sentence terminator
(`.` does not match a newline, so a newline aborts); returns the offset just
past the terminator. -/
def termEndFrom (text : Str) : Nat → Nat → Option Nat
  | 0, _ => none
  | fuel + 1, q =>
    match text[q]? with
    | none => none
    | some c =>
      if isSentEnd c then some (q + 1)
      else if c = '\n' then none
      else termEndFrom text fuel (q + 1)

def termEnd (text : Str) (q : Nat) : Option Nat := termEndFrom text (text.length + 1) q

/-- One attempt of `[^.!?]*?(?:alt1|alt2|...).*?[.!?]` at `p` — the
attributed-research / causal / date-anchored claim patterns.  The lazy prefix
grows while it stays clear of sentence terminators; at each length the
alternatives are tried in order; after the keyword the lazy tail runs to the
first terminator.  If no terminator follows the keyword, later backtracking
candidates end even further right (and the default keyword literals contain no
terminators), so the attempt fails. -/
def sentKwAux (alts : List RAlt) (text : Str) : Nat → Nat → Option Nat
  | 0, _ => none
  | fuel + 1, q =>
    match matchGroups text [alts] q with
    | some e => termEnd text e
    | none =>
      match text[q]? with
      | some c => if isSentEnd c then none else sentKwAux alts text fuel (q + 1)
      | none => none

def sentKwTryAt (alts : List RAlt) (text : Str) (p : Nat) : Option Nat :=
  sentKwAux alts text (text.length + 1) p

/-- `re.finditer` for a `[^.!?]*?(?:...).*?[.!?]` claim pattern. -/
def findSentenceKeyword (alts : List RAlt) (text : Str) : List (Nat × Nat) :=
  scan (sentKwTryAt alts text) text.length

/-- The unit alternation of the statistical claim pattern. -/
def statUnits : List RAlt :=
  litAlts ["of", "in", "people", "Americans", "users", "voters", "patients"]

/-- One attempt of
`\d+(?:\.\d+)?(?:\s*%)?\s*(?:of|in|people|Americans|users|voters|patients).*?[.!?]`
at `p`.  Backtracking is deterministic here: shortening a greedy digit or
space run leaves a digit / space where the follow-up (starting with a letter
or `%`) cannot match, so maximal runs are forced, and each optional group is
forced exactly when its text is present.  The head is split into helper
functions: `statE2` ends the optional decimal part `(?:\.\d+)?`. -/
def statE2 (text : Str) (e1 : Nat) : Nat :=
  if text[e1]? == some '.' && 0 < runLen Char.isDigit text (e1 + 1) then
    e1 + 1 + runLen Char.isDigit text (e1 + 1)
  else e1

/-- The end of the optional percent part `(?:\s*%)?` starting at `e2`. -/
def statE3 (text : Str) (e2 : Nat) : Nat :=
  if text[e2 + runLen isSpaceChar text e2]? == some '%' then
    e2 + runLen isSpaceChar text e2 + 1
  else e2

/-- The end of the whole numeric head `\d+(?:\.\d+)?(?:\s*%)?\s*`, starting
from the first digit at `p`. -/
def statNum (text : Str) (p : Nat) : Nat :=
  statE3 text (statE2 text (p + runLen Char.isDigit text p))
    + runLen isSpaceChar text (statE3 text (statE2 text (p + runLen Char.isDigit text p)))

def statTryAt (text : Str) (p : Nat) : Option Nat :=
  if runLen Char.isDigit text p = 0 then none
  else
    match matchGroups text [statUnits] (statNum text p) with
    | some e5 => termEnd text e5
    | none => none

/-- `re.finditer` for the statistical claim pattern. -/
def findStatClaims (text : Str) : List (Nat × Nat) :=
  scan (statTryAt text) text.length

/-- The keyword alternations of claim patterns 2–4. -/
def claimPattern2Alts : List RAlt :=
  litAlts ["study shows", "research indicates", "scientists discovered",
           "experts agree", "data reveals", "report states"]

def claimPattern3Alts : List RAlt := litAlts ["causes"]

def claimPattern4Alts : List RAlt :=
  [Piece.inYear4] :: litAlts ["last year", "last month", "last week", "yesterday", "today"]

/-- A candidate factual claim `{text, start, end}` (`end` is `stop` here). -/
structure Claim where
  text : Str
  start : Nat
  stop : Nat
deriving DecidableEq

/-- All candidate claims before the length filter, in pattern order then match
order: the matched slice is stripped (`match.group(1).strip()`, where group 1
covers the whole match). -/
def claimCandidates (text : Str) : List Claim :=
  ((findStatClaims text) ++ (findSentenceKeyword claimPattern2Alts text)
      ++ (findSentenceKeyword claimPattern3Alts text)
      ++ (findSentenceKeyword claimPattern4Alts text)).map
    (fun m => { text := stripWs (sliceStr text m.1 m.2), start := m.1, stop := m.2 })

/-- Stable insertion of a claim after all claims with start ≤ its start. -/
def insertByStart (c : Claim) : List Claim → List Claim
  | [] => [c]
  | d :: rest => if d.start ≤ c.start then d :: insertByStart c rest else c :: d :: rest

/-- `claims.sort(key=lambda x: x["start"])` (Python's sort is stable). -/
def sortByStart (l : List Claim) : List Claim := l.foldl (fun acc c => insertByStart c acc) []

/-- The overlap-deduplication pass: keep a claim when it starts at or after the
last kept claim's end, otherwise replace the last kept claim when the new one
is strictly longer. -/
def dedupClaims (l : List Claim) : List Claim :=
  l.foldl (fun acc c =>
    match acc.getLast? with
    | none => acc ++ [c]
    | some last =>
      if c.start ≥ last.stop then acc ++ [c]
      else if c.stop - c.start > last.stop - last.start then acc.dropLast ++ [c]
      else acc) []

/-- `FactChecker._extract_claims`: collect candidates, keep those with stripped
text longer than 10 characters, sort by start, deduplicate overlaps. -/
def extract_claims (text : Str) : List Claim :=
  dedupClaims (sortByStart ((claimCandidates text).filter (fun c => c.text.length > 10)))

/-- An entry of the local claims database. -/
structure DbClaim where
  claim_text : Str
  verified : Bool
  source_url : Str
  published_date : Str
deriving DecidableEq

/-- The result dictionary of `_check_against_local_db` / `_check_with_external_api`. -/
structure CheckResult where
  found : Bool
  verified : Bool
  confidence : ℚ
  source_url : Str
  published_date : Str
deriving DecidableEq

/-- `re.sub(r'[^\w\s]', '', claim.lower())`. -/
def cleanClaim (s : Str) : Str :=
  (s.map lowerChar).filter (fun c => isWordChar c || isSpaceChar c)

/-- Set of words (first-occurrence order; only membership and size matter). -/
def distinctWords (l : List Str) : List Str :=
  l.foldl (fun acc w => if acc.contains w then acc else acc ++ [w]) []

def wordSetOf (s : Str) : List Str := distinctWords (splitWs (cleanClaim s))

/-- Jaccard similarity of two word sets (`0` when the union is empty). -/
def jaccard (ws dbws : List Str) : ℚ :=
  let inter := (ws.filter (fun w => dbws.contains w)).length
  let uni := ws.length + (dbws.filter (fun w => !ws.contains w)).length
  if uni > 0 then (inter : ℚ) / uni else 0

/-- One iteration of `_check_against_local_db`'s loop: entries whose word set
(or the claim's) is empty are skipped; the best match is updated only on a
strict similarity improvement above the 0.7 threshold. -/
def localStep (ws : List Str) (acc : Option DbClaim × ℚ) (e : DbClaim) : Option DbClaim × ℚ :=
  let dbws := wordSetOf e.claim_text
  if ws.isEmpty || dbws.isEmpty then acc
  else if jaccard ws dbws > acc.2 ∧ jaccard ws dbws > 7/10 then (some e, jaccard ws dbws)
  else acc

/-- The accumulator loop of `_check_against_local_db`. -/
def localBest (db : List DbClaim) (ws : List Str) : Option DbClaim × ℚ :=
  db.foldl (localStep ws) (none, 0)

/-- `FactChecker._check_against_local_db`. -/
def check_against_local_db (db : List DbClaim) (claim : Str) : CheckResult :=
  match localBest db (wordSetOf claim) with
  | (some e, sim) =>
    { found := true, verified := e.verified, confidence := sim,
      source_url := e.source_url, published_date := e.published_date }
  | (none, _) =>
    { found := false, verified := false, confidence := 0,
      source_url := str "", published_date := str "" }

/-- The random source consumed by the simulated external API
(`random.choice` / `random.uniform`), made explicit. -/
structure Rng where
  bools : List Bool
  rats : List ℚ
deriving DecidableEq

def Rng.nextBool (r : Rng) : Bool × Rng :=
  match r.bools with
  | [] => (true, r)
  | b :: rest => (b, { r with bools := rest })

def Rng.nextRat (r : Rng) : ℚ × Rng :=
  match r.rats with
  | [] => (7/10, r)
  | q :: rest => (q, { r with rats := rest })

/-- Case-insensitive substring containment (`needle in hay.lower()`). -/
def containsCI (needle hay : Str) : Bool := !(findSubstrCI needle hay).isEmpty

/-- `FactChecker._check_with_external_api` (the simulated external
collaborator; the random fallback draws from the explicit `Rng`). -/
def check_with_external_api (claim : Str) (rng : Rng) : CheckResult × Rng :=
  if containsCI (str "covid") claim || containsCI (str "vaccine") claim
      || containsCI (str "election") claim || containsCI (str "climate change") claim then
    if containsCI (str "5g") claim && containsCI (str "covid") claim then
      ({ found := true, verified := false, confidence := 9/10,
         source_url := str "https://www.factcheck.org/example-check",
         published_date := str "2023-05-15" }, rng)
    else if containsCI (str "vaccine") claim && containsCI (str "microchip") claim then
      ({ found := true, verified := false, confidence := 95/100,
         source_url := str "https://www.snopes.com/example-check",
         published_date := str "2023-03-22" }, rng)
    else if containsCI (str "election") claim && containsCI (str "stolen") claim then
      ({ found := true, verified := false, confidence := 85/100,
         source_url := str "https://www.politifact.com/example-check",
         published_date := str "2023-02-10" }, rng)
    else
      let br := rng.nextBool
      let qr := br.2.nextRat
      ({ found := true, verified := br.1, confidence := qr.1,
         source_url := str "https://www.factcheck.org/another-example",
         published_date := str "2023-04-18" }, qr.2)
  else
    ({ found := false, verified := false, confidence := 0,
       source_url := str "", published_date := str "" }, rng)

/-- `FactChecker._is_statistical_claim`: `re.search(r'\d+(?:\.\d+)?(?:\s*%)?')`
succeeds exactly when the claim contains a digit (the optional tails always
match). -/
def isStatisticalClaim (c : Str) : Bool := c.any Char.isDigit

/-- Four or more consecutive digits somewhere in `l` (`\d{4}` inside a wider
pattern). -/
def has4DigitRun (l : Str) : Bool :=
  (List.range l.length).any (fun i => 4 ≤ runLen Char.isDigit l i)

/-- `\([^)]*\d{4}[^)]*\)` has a match starting at `i`. -/
def parenYearAt (s : Str) (i : Nat) : Bool :=
  s[i]? == some '(' &&
    ((s.drop (i + 1)).takeWhile (fun c => c != ')')).length < (s.drop (i + 1)).length &&
    has4DigitRun ((s.drop (i + 1)).takeWhile (fun c => c != ')'))

/-- `\[[^\]]*\]` matches somewhere: a `[` with a later `]`. -/
def bracketRef (s : Str) : Bool :=
  (List.range s.length).any (fun i =>
    s[i]? == some '[' && (s.drop (i + 1)).any (fun c => c = ']'))

/-- A non-whitespace character at `i` (`\S`). -/
def nonSpaceAt (s : Str) (i : Nat) : Bool :=
  match s[i]? with
  | some c => !isSpaceChar c
  | none => false

/-- `https?://\S+|www\.\S+` matches somewhere. -/
def urlRef (s : Str) : Bool :=
  (List.range s.length).any (fun i =>
    (matchesAtCI (str "http://") s i && nonSpaceAt s (i + 7))
    || (matchesAtCI (str "https://") s i && nonSpaceAt s (i + 8))
    || (matchesAtCI (str "www.") s i && nonSpaceAt s (i + 4)))

/-- `re.search` success of any of the six citation patterns inside `s`. -/
def hasCitationIn (s : Str) : Bool :=
  (List.range s.length).any (fun i => parenYearAt s i)
  || containsCI (str "according to ") s
  || containsCI (str "cited by ") s
  || bracketRef s
  || urlRef s

/-- `FactChecker._has_citation`: look in the claim's slice and in the 100
characters after it. -/
def hasCitation (text : Str) (cstart cstop : Nat) : Bool :=
  hasCitationIn (sliceStr text cstart cstop)
  || hasCitationIn (sliceStr text cstop (min (cstop + 100) text.length))

/-- A fact-checking source record. -/
structure SourceRec where
  claim : Str
  verified : Bool
  fact_check_url : Str
  published_date : Str
deriving DecidableEq

/-- The fact checker's metadata dictionary. -/
structure FactMeta where
  claims_detected : Nat
  claims_verified : Nat
  claims_refuted : Nat
  overall_factual_accuracy : Option ℚ
deriving DecidableEq

/-- The fact checker's result `{issues, sources, metadata}`. -/
structure FactResult where
  issues : List Issue
  sources : List SourceRec
  metadata : FactMeta
deriving DecidableEq

/-- Loop state of `check_facts`'s per-claim loop. -/
structure FactState where
  issues : List Issue
  sources : List SourceRec
  verified : Nat
  refuted : Nat
  rng : Rng
deriving DecidableEq

/-- The body of `check_facts`'s per-claim loop. -/
def processClaim (db : List DbClaim) (apiKey : Str) (fullText : Str)
    (st : FactState) (c : Claim) : FactState :=
  let localCheck := check_against_local_db db c.text
  if localCheck.found then
    let st1 := if !localCheck.verified then
        { st with
          issues := st.issues ++
            [{ type := str "false_claim"
               description := str "False claim: \x22" ++ c.text ++ str "\x22"
               confidence := localCheck.confidence
               spans := [(c.start, c.stop)] }]
          refuted := st.refuted + 1 }
      else { st with verified := st.verified + 1 }
    { st1 with
      sources := st1.sources ++
        [{ claim := c.text, verified := localCheck.verified,
           fact_check_url := localCheck.source_url,
           published_date := localCheck.published_date }] }
  else if apiKey ≠ [] then
    let er := check_with_external_api c.text st.rng
    let st0 := { st with rng := er.2 }
    if er.1.found then
      let st1 := if !er.1.verified then
          { st0 with
            issues := st0.issues ++
              [{ type := str "external_fact_check"
                 description := str "Claim disputed by fact-checkers: \x22" ++ c.text ++ str "\x22"
                 confidence := er.1.confidence
                 spans := [(c.start, c.stop)] }]
            refuted := st0.refuted + 1 }
        else { st0 with verified := st0.verified + 1 }
      { st1 with
        sources := st1.sources ++
          [{ claim := c.text, verified := er.1.verified,
             fact_check_url := er.1.source_url,
             published_date := er.1.published_date }] }
    else if isStatisticalClaim c.text && !hasCitation fullText c.start c.stop then
      { st0 with
        issues := st0.issues ++
          [{ type := str "uncited_statistic"
             description := str "Statistical claim without citation: \x22" ++ c.text ++ str "\x22"
             confidence := 7/10
             spans := [(c.start, c.stop)] }] }
    else st0
  else st

/-- `FactChecker.check_facts`. -/
def check_facts (db : List DbClaim) (apiKey : Str) (rng : Rng) (text : Str) : FactResult :=
  let claims := extract_claims text
  if claims.isEmpty then
    { issues := [], sources := []
      metadata := { claims_detected := claims.length, claims_verified := 0,
                    claims_refuted := 0, overall_factual_accuracy := none } }
  else
    let fin := claims.foldl (processClaim db apiKey text)
      { issues := [], sources := [], verified := 0, refuted := 0, rng := rng }
    { issues := fin.issues, sources := fin.sources
      metadata :=
        { claims_detected := claims.length
          claims_verified := fin.verified
          claims_refuted := fin.refuted
          overall_factual_accuracy := if claims.length > 0 then
              some (round2 ((fin.verified : ℚ) / claims.length))
            else none } }

/-! ### CredibilityScorer (`app/credibility_score.py`) -/

/-- Default `issue_weights` with the lookup default 2
(`self.issue_weights.get(issue_type, 2)`). -/
def issueWeight (t : Str) : ℚ :=
  if t = str "loaded_language" then 3
  else if t = str "generalization" then 4
  else if t = str "exaggeration" then 3
  else if t = str "subjective_language" then 2
  else if t = str "political_bias" then 3
  else if t = str "emotional_trigger" then 3
  else if t = str "urgency_manipulation" then 4
  else if t = str "fear_manipulation" then 5
  else if t = str "typography_manipulation" then 2
  else if t = str "false_claim" then 10
  else if t = str "external_fact_check" then 8
  else if t = str "uncited_statistic" then 5
  else if t = str "clickbait" then 5
  else if t = str "propaganda_technique" then 6
  else if t = str "sensationalist_language" then 4
  else if t = str "excessive_hedging" then 2
  else if t = str "excessive_passive_voice" then 1
  else 2

/-- The merged metadata mapping, keyed by detector name; a detector that did
not run has no entry (`metadata.get(name, {})` then yields the defaults). -/
structure Metadata where
  bias : Option BiasMeta := none
  emotional_manipulation : Option EmotionMeta := none
  fact_checking : Option FactMeta := none
  linguistic_patterns : Option PatternMeta := none
deriving DecidableEq

/-- Update of the `issue_penalties` accumulation dictionary. -/
def addPenalty (pens : List (Str × ℚ)) (t : Str) (p : ℚ) : List (Str × ℚ) :=
  if pens.any (fun kv => kv.1 == t) then
    pens.map (fun kv => if kv.1 == t then (kv.1, kv.2 + p) else kv)
  else pens ++ [(t, p)]

/-- The scorer's result (the narrative `summary` string is presentation text
and is not modelled). -/
structure ScoreResult where
  score : ℤ
  confidence : ℚ
  issue_penalties : List (Str × ℚ)
deriving DecidableEq

/-- `CredibilityScorer.calculate_score` with the default configuration
(every `metadata_factors.get(..., 0.2)` below is the default factor from
`__init__`; the factual-accuracy factor is 0.4). -/
def calculate_score (issues : List Issue) (md : Metadata) : ScoreResult :=
  let step := issues.foldl (fun acc issue =>
      (acc.1 - issueWeight issue.type * issue.confidence,
       addPenalty acc.2 issue.type (issueWeight issue.type * issue.confidence)))
    ((100 : ℚ), ([] : List (Str × ℚ)))
  let bias_level := ((md.bias.map (fun m => m.overall_bias_level)).getD 0)
  let base2 := step.1 - bias_level * 15 * (2/10)
  let emotional := ((md.emotional_manipulation.map
      (fun m => m.emotional_manipulation_score)).getD 0)
  let base3 := base2 - emotional * 15 * (2/10)
  let facc := (md.fact_checking.map (fun m => m.overall_factual_accuracy)).getD none
  let base4 := match facc with
    | some a => base3 + a * 20 * (4/10)
    | none => base3
  let cb := ((md.linguistic_patterns.map (fun m => m.clickbait_level)).getD 0)
  let pg := ((md.linguistic_patterns.map (fun m => m.propaganda_level)).getD 0)
  let sn := ((md.linguistic_patterns.map (fun m => m.sensationalism_level)).getD 0)
  let base5 := base4 - (cb + pg + sn) / 3 * 15 * (2/10)
  let final := qmax 0 (qmin 100 base5)
  let signals := issues.length + (if facc.isSome then 1 else 0)
  { score := pyRound final
    confidence := round2 (qmin (95/100) (1/2 + ((signals : ℚ) / 20) * (45/100)))
    issue_penalties := step.2 }

/-! ### Orchestrator (`app/analyzer.py`, `ContentAnalyzer.analyze_text`) -/

/-- The analysis option flags (Python reads each with
`options.get(flag, True)`; passing `None` selects the all-true defaults). -/
structure Options where
  check_facts : Bool
  analyze_bias : Bool
  detect_emotional_manipulation : Bool
  analyze_linguistic_patterns : Bool
deriving DecidableEq

def defaultOptions : Options :=
  { check_facts := true, analyze_bias := true,
    detect_emotional_manipulation := true, analyze_linguistic_patterns := true }

/-- The orchestrator's result (the wall-clock `timestamp` and the narrative
`summary` are not modelled). -/
structure AnalysisResult where
  text_length : Nat
  issues : List Issue
  metadata : Metadata
  sources : List SourceRec
  credibility_score : ℤ
  confidence : ℚ
deriving DecidableEq

/-- `ContentAnalyzer.analyze_text`: run the enabled detectors in the fixed
order bias → emotion → facts → patterns, merge issues and metadata, then
score.  `db`, `apiKey` and `rng` are the fact checker's collaborators (the
default construction has an empty database and takes the key from the
environment). -/
def analyze_text (db : List DbClaim) (apiKey : Str) (rng : Rng) (text : Str)
    (options : Option Options) : AnalysisResult :=
  let opts := options.getD defaultOptions
  let br := detect_bias text
  let er := detect_manipulation text
  let fr := check_facts db apiKey rng text
  let pr := analyze_patterns text
  let issues :=
    (if opts.analyze_bias then br.issues else [])
    ++ (if opts.detect_emotional_manipulation then er.issues else [])
    ++ (if opts.check_facts then fr.issues else [])
    ++ (if opts.analyze_linguistic_patterns then pr.issues else [])
  let md : Metadata :=
    { bias := if opts.analyze_bias then some br.metadata else none
      emotional_manipulation :=
        if opts.detect_emotional_manipulation then some er.metadata else none
      fact_checking := if opts.check_facts then some fr.metadata else none
      linguistic_patterns :=
        if opts.analyze_linguistic_patterns then some pr.metadata else none }
  let sr := calculate_score issues md
  { text_length := text.length
    issues := issues
    metadata := md
    sources := if opts.check_facts then fr.sources else []
    credibility_score := sr.score
    confidence := sr.confidence }

/-! ### Helper lemmas for the scorer -/

theorem score_foldl_sum (issues : List Issue) :
    ∀ (b : ℚ) (pens : List (Str × ℚ)),
      (issues.foldl (fun acc issue =>
        (acc.1 - issueWeight issue.type * issue.confidence,
         addPenalty acc.2 issue.type (issueWeight issue.type * issue.confidence))) (b, pens)).1
      = b - (issues.map (fun i => issueWeight i.type * i.confidence)).sum := by
  induction issues with
  | nil => intro b pens; simp
  | cons i rest ih =>
    intro b pens
    simp only [List.foldl_cons, List.map_cons, List.sum_cons]
    rw [ih]
    ring

theorem pyRound_bounds {lo hi : ℤ} {q : ℚ} (h0 : (lo : ℚ) ≤ q) (h1 : q ≤ (hi : ℚ)) :
    lo ≤ pyRound q ∧ pyRound q ≤ hi := by
  have hfe : Rat.floor q = ⌊q⌋ := (Rat.floor_def' q).trans Rat.floor_def.symm
  have hfl : lo ≤ ⌊q⌋ := Int.le_floor.mpr h0
  have hfh : ⌊q⌋ ≤ hi := by
    have := Int.floor_le_floor h1
    simpa using this
  have hq : (⌊q⌋ : ℚ) ≤ q := Int.floor_le q
  have key : pyRound q = ⌊q⌋ ∨ (pyRound q = ⌊q⌋ + 1 ∧ 1/2 ≤ q - ⌊q⌋) := by
    unfold pyRound
    rw [hfe]
    by_cases hA : q - ⌊q⌋ < 1/2
    · rw [if_pos hA]; exact Or.inl rfl
    · rw [if_neg hA]
      by_cases hB : 1/2 < q - ⌊q⌋
      · rw [if_pos hB]; exact Or.inr ⟨rfl, le_of_lt hB⟩
      · rw [if_neg hB]
        by_cases hC : ⌊q⌋ % 2 = 0
        · rw [if_pos hC]; exact Or.inl rfl
        · rw [if_neg hC]; exact Or.inr ⟨rfl, not_lt.mp hA⟩
  rcases key with h | ⟨h, hhalf⟩
  · omega
  · refine ⟨by omega, ?_⟩
    have h2 : (⌊q⌋ : ℚ) + 1/2 ≤ q := by linarith
    have hlt : (⌊q⌋ : ℚ) < (hi : ℚ) := by linarith
    have : ⌊q⌋ < hi := by exact_mod_cast hlt
    omega

theorem round2_bounds {lo hi : ℤ} {q : ℚ} (h0 : (lo : ℚ) ≤ q * 100) (h1 : q * 100 ≤ (hi : ℚ)) :
    (lo : ℚ) / 100 ≤ round2 q ∧ round2 q ≤ (hi : ℚ) / 100 := by
  have := pyRound_bounds h0 h1
  unfold round2
  constructor
  · apply div_le_div_of_nonneg_right ?_ (by norm_num)
    exact_mod_cast this.1
  · apply div_le_div_of_nonneg_right ?_ (by norm_num)
    exact_mod_cast this.2

/-- C4: with the default configuration, `calculate_score` subtracts
`weight(type) × confidence` for every issue (weight default 2 for unknown
types), subtracts `level × 15 × 0.2` for the bias level, the emotional
manipulation score and the mean of the three linguistic levels, and adds
`accuracy × 20 × 0.4` exactly when the factual accuracy is present; the score
is that total clamped to [0,100] and rounded. -/
theorem c4_score_formula (issues : List Issue) (md : Metadata) :
    (calculate_score issues md).score =
      pyRound (max 0 (min 100 (
        100 - (issues.map (fun i => issueWeight i.type * i.confidence)).sum
          - ((md.bias.map (fun m => m.overall_bias_level)).getD 0) * 15 * (2/10)
          - ((md.emotional_manipulation.map
              (fun m => m.emotional_manipulation_score)).getD 0) * 15 * (2/10)
          + (match (md.fact_checking.map (fun m => m.overall_factual_accuracy)).getD none with
             | some a => a * 20 * (4/10)
             | none => 0)
          - (((md.linguistic_patterns.map (fun m => m.clickbait_level)).getD 0
              + (md.linguistic_patterns.map (fun m => m.propaganda_level)).getD 0
              + (md.linguistic_patterns.map (fun m => m.sensationalism_level)).getD 0) / 3)
            * 15 * (2/10)))) := by
  unfold calculate_score
  dsimp only
  rw [score_foldl_sum, qmax_eq, qmin_eq]
  cases hf : (md.fact_checking.map (fun m => m.overall_factual_accuracy)).getD none with
  | none => exact congrArg (fun z => pyRound (max 0 (min 100 z))) (by ring)
  | some a => exact congrArg (fun z => pyRound (max 0 (min 100 z))) (by ring)

theorem calc_score_bounds (issues : List Issue) (md : Metadata) :
    0 ≤ (calculate_score issues md).score ∧ (calculate_score issues md).score ≤ 100 := by
  unfold calculate_score
  dsimp only
  rw [qmax_eq, qmin_eq]
  refine @pyRound_bounds 0 100 _ ?_ ?_
  · push_cast
    exact le_max_left _ _
  · push_cast
    exact max_le (by norm_num) (min_le_left _ _)

theorem calc_conf_formula (issues : List Issue) (md : Metadata) :
    (calculate_score issues md).confidence =
      round2 (min (95/100) (1/2 + (((issues.length +
        (if ((md.fact_checking.map (fun m => m.overall_factual_accuracy)).getD none).isSome
          then 1 else 0) : ℕ) : ℚ) / 20) * (45/100))) := by
  unfold calculate_score
  dsimp only
  rw [qmin_eq]

theorem calc_conf_bounds (issues : List Issue) (md : Metadata) :
    0 ≤ (calculate_score issues md).confidence ∧ (calculate_score issues md).confidence ≤ 1 := by
  rw [calc_conf_formula]
  set s : ℚ := (((issues.length +
    (if ((md.fact_checking.map (fun m => m.overall_factual_accuracy)).getD none).isSome
      then 1 else 0) : ℕ) : ℚ) / 20) * (45/100) with hs
  have hs0 : 0 ≤ s := by
    rw [hs]
    positivity
  have hlo : (50 : ℚ) ≤ min (95/100) (1/2 + s) * 100 := by
    have h1 : (1/2 : ℚ) ≤ 1/2 + s := by linarith
    have h2 : (1/2 : ℚ) ≤ min (95/100) (1/2 + s) := le_min (by norm_num) h1
    linarith
  have hhi : min (95/100) (1/2 + s) * 100 ≤ (95 : ℚ) := by
    have h2 : min (95/100) (1/2 + s) ≤ 95/100 := min_le_left _ _
    linarith
  have := @round2_bounds 50 95 (min (95/100) (1/2 + s)) (by exact_mod_cast hlo)
    (by exact_mod_cast hhi)
  constructor
  · have h1 := this.1
    norm_num at h1 ⊢
    linarith
  · have h2 := this.2
    norm_num at h2 ⊢
    linarith

/-- C5 (amended): for every input and option combination, the result's
`credibility_score` is an integer in [0, 100] (clamped then rounded) and its
`confidence` lies in [0, 1] and equals
`min(0.95, 0.5 + (signal_count/20) × 0.45)` **rounded to two decimal places**
(`round(confidence, 2)` in the source), where `signal_count` is the issue
count plus 1 when the factual accuracy is present. -/
theorem c5_result_bounds (db : List DbClaim) (apiKey : Str) (rng : Rng) (text : Str)
    (options : Option Options) :
    (0 ≤ (analyze_text db apiKey rng text options).credibility_score
      ∧ (analyze_text db apiKey rng text options).credibility_score ≤ 100)
    ∧ (0 ≤ (analyze_text db apiKey rng text options).confidence
      ∧ (analyze_text db apiKey rng text options).confidence ≤ 1)
    ∧ (analyze_text db apiKey rng text options).confidence =
        round2 (min (95/100) (1/2 +
          ((((analyze_text db apiKey rng text options).issues.length +
            (if (((analyze_text db apiKey rng text options).metadata.fact_checking.map
                (fun m => m.overall_factual_accuracy)).getD none).isSome
              then 1 else 0) : ℕ) : ℚ) / 20) * (45/100))) := by
  unfold analyze_text
  dsimp only
  exact ⟨calc_score_bounds _ _, calc_conf_bounds _ _, calc_conf_formula _ _⟩

/-- C5, counterexample to the claim as stated: on the text `"clearly"` (one
loaded-language issue, no factual accuracy, hence signal count 1) the returned
confidence is 0.52, not the exact formula value 0.5225 — the source rounds the
confidence to two decimals before returning it. -/
theorem c5_counterexample :
    (analyze_text [] (str "") ⟨[], []⟩ (str "clearly") none).issues.length = 1
    ∧ (((analyze_text [] (str "") ⟨[], []⟩ (str "clearly") none).metadata.fact_checking.map
        (fun m => m.overall_factual_accuracy)).getD none) = none
    ∧ min (95/100) (1/2 + (((1 : ℕ) : ℚ) / 20) * (45/100)) = 209/400
    ∧ (analyze_text [] (str "") ⟨[], []⟩ (str "clearly") none).confidence ≠ 209/400 := by
  refine ⟨by decide, by decide, by norm_num, by decide⟩

/-- On empty text claim extraction finds nothing, so the fact checker's loop
never runs: the result is fixed whatever the database, API key or random
source are. -/
theorem check_facts_nil (db : List DbClaim) (apiKey : Str) (rng : Rng) :
    check_facts db apiKey rng [] =
      { issues := [], sources := []
        metadata := { claims_detected := 0, claims_verified := 0, claims_refuted := 0,
                      overall_factual_accuracy := none } } := rfl

/-- C6: on the empty string every detector runs without a division (all
densities and levels take their guarded 0 defaults at word count 0), and the
pipeline returns no issues, score 100, confidence 0.5, and an absent
(`None`) overall factual accuracy. -/
theorem c6_empty_text (db : List DbClaim) (apiKey : Str) (rng : Rng) :
    (analyze_text db apiKey rng [] none).issues = []
    ∧ (analyze_text db apiKey rng [] none).credibility_score = 100
    ∧ (analyze_text db apiKey rng [] none).confidence = 1/2
    ∧ (analyze_text db apiKey rng [] none).metadata.fact_checking.map
        (fun m => m.overall_factual_accuracy) = some none
    ∧ (analyze_text db apiKey rng [] none).metadata.bias =
        some { bias_types_detected := [], political_leaning := none,
               political_leaning_confidence := 0, overall_bias_level := 0 }
    ∧ (analyze_text db apiKey rng [] none).metadata.emotional_manipulation =
        some { emotion_types_detected := [], dominant_emotion := none,
               emotional_manipulation_score := 0, emotional_intensity := 0 }
    ∧ (analyze_text db apiKey rng [] none).metadata.linguistic_patterns =
        some { patterns_detected := [], clickbait_level := 0, propaganda_level := 0,
               sensationalism_level := 0, hedging_level := 0 } := by
  refine ⟨rfl, ?_, ?_, rfl, rfl, rfl, rfl⟩
  · simp only [analyze_text, Option.getD, eq_self_iff_true, if_true, check_facts_nil]
    decide
  · simp only [analyze_text, Option.getD, eq_self_iff_true, if_true, check_facts_nil]
    decide

/-- C10: with every option flag false no detector runs: the result carries no
issues, no sources, an empty per-detector metadata mapping, score 100 and
confidence 0.5. -/
theorem c10_all_flags_false (db : List DbClaim) (apiKey : Str) (rng : Rng) (text : Str) :
    (analyze_text db apiKey rng text (some
        { check_facts := false, analyze_bias := false,
          detect_emotional_manipulation := false,
          analyze_linguistic_patterns := false })).issues = []
    ∧ (analyze_text db apiKey rng text (some
        { check_facts := false, analyze_bias := false,
          detect_emotional_manipulation := false,
          analyze_linguistic_patterns := false })).sources = []
    ∧ (analyze_text db apiKey rng text (some
        { check_facts := false, analyze_bias := false,
          detect_emotional_manipulation := false,
          analyze_linguistic_patterns := false })).metadata =
      { bias := none, emotional_manipulation := none,
        fact_checking := none, linguistic_patterns := none }
    ∧ (analyze_text db apiKey rng text (some
        { check_facts := false, analyze_bias := false,
          detect_emotional_manipulation := false,
          analyze_linguistic_patterns := false })).credibility_score = 100
    ∧ (analyze_text db apiKey rng text (some
        { check_facts := false, analyze_bias := false,
          detect_emotional_manipulation := false,
          analyze_linguistic_patterns := false })).confidence = 1/2 := by
  refine ⟨rfl, rfl, rfl, ?_, ?_⟩
  · simp only [analyze_text, Option.getD, Bool.false_eq_true, if_false]
    decide
  · simp only [analyze_text, Option.getD, Bool.false_eq_true, if_false]
    decide

/-! ### C1: the propaganda-technique span filter -/

theorem detect_patterns_with_info (fd : Pat → Str → List (Nat × Nat × Str)) (text : Str)
    (patterns : List Pat) :
    ∀ m ∈ detect_patterns_with fd text patterns, dictGet m.info (str "technique") = none := by
  intro m hm
  unfold detect_patterns_with at hm
  obtain ⟨pat, _, hm2⟩ := List.mem_flatMap.mp hm
  obtain ⟨x, _, hx⟩ := List.mem_map.mp hm2
  rw [← hx]
  rfl

theorem propaganda_fold_info (fd : Pat → Str → List (Nat × Nat × Str)) (text : Str) :
    ∀ (tps : List (Str × List Pat)) (acc : List PMatch × List (Str × Nat)),
      (∀ m ∈ acc.1, dictGet m.info (str "technique") = none) →
      ∀ m ∈ (tps.foldl (fun acc tp =>
          let tm := detect_patterns_with fd text tp.2
          if tm.isEmpty then acc else (acc.1 ++ tm, acc.2 ++ [(tp.1, tm.length)])) acc).1,
        dictGet m.info (str "technique") = none := by
  intro tps
  induction tps with
  | nil => intro acc hacc m hm; exact hacc m hm
  | cons tp rest ih =>
    intro acc hacc m hm
    rw [List.foldl_cons] at hm
    refine ih _ ?_ m hm
    dsimp only
    split
    · exact hacc
    · intro m' hm'
      rcases List.mem_append.mp hm' with h | h
      · exact hacc m' h
      · exact detect_patterns_with_info fd text tp.2 m' h

theorem mem_ite_nil_left {α : Type} {c : Prop} [Decidable c] {l : List α} {x : α}
    (h : x ∈ if c then [] else l) : x ∈ l := by
  split at h
  · cases h
  · exact h

theorem mem_ite_nil_right {α : Type} {c : Prop} [Decidable c] {l : List α} {x : α}
    (h : x ∈ if c then l else []) : x ∈ l := by
  split at h
  · exact h
  · cases h

/-- C1: for any regex engine and any text, every `propaganda_technique` Issue
emitted by `analyze_patterns` carries an **empty** span list — never the
technique's own matches.  `_detect_patterns` stores only the keys `"text"` and
`"pattern"` in a match's info dictionary, while the span comprehension filters
on `info.get("technique") == technique`, which compares `None` with a string
and is always false. -/
theorem c1_propaganda_spans_empty (fd : Pat → Str → List (Nat × Nat × Str)) (text : Str) :
    ∀ issue ∈ (analyze_patterns_core fd text).issues,
      issue.type = str "propaganda_technique" → issue.spans = [] := by
  intro issue hmem htype
  unfold analyze_patterns_core at hmem
  dsimp only at hmem
  rcases List.mem_append.mp hmem with hmem4 | hpv
  · rcases List.mem_append.mp hmem4 with hmem3 | hhg
    · rcases List.mem_append.mp hmem3 with hmem2 | hsn
      · rcases List.mem_append.mp hmem2 with hcb | hpg
        · -- clickbait issue: its type is "clickbait", contradiction
          have he := List.mem_singleton.mp (mem_ite_nil_left hcb)
          subst he
          have ht : str "clickbait" = str "propaganda_technique" := htype
          exact absurd ht (by decide)
        · -- propaganda issues: the span filter never matches
          obtain ⟨tc, htc, hf⟩ := List.mem_map.mp (mem_ite_nil_left hpg)
          subst hf
          show List.map _ (List.filter _ _) = []
          rw [List.filter_eq_nil_iff.mpr, List.map_nil]
          intro m hm
          have hnone := propaganda_fold_info fd text propagandaTechniques ([], [])
            (by intro m' hm'; cases hm') m hm
          rw [hnone]
          exact fun hco => Bool.noConfusion (show false = true from hco)
      · have he := List.mem_singleton.mp (mem_ite_nil_left hsn)
        subst he
        have ht : str "sensationalist_language" = str "propaganda_technique" := htype
        exact absurd ht (by decide)
    · have he := List.mem_singleton.mp (mem_ite_nil_right hhg)
      subst he
      have ht : str "excessive_hedging" = str "propaganda_technique" := htype
      exact absurd ht (by decide)
  · have he := List.mem_singleton.mp (mem_ite_nil_right hpv)
    subst he
    have ht : str "excessive_passive_voice" = str "propaganda_technique" := htype
    exact absurd ht (by decide)

/-- The concrete propaganda issue produced on the text `"snowflake"`. -/
def c1Issue : Issue :=
  { type := str "propaganda_technique"
    description := str "Propaganda technique detected: name calling"
    confidence := 75/100
    spans := [] }

theorem c1_propaganda_spans_empty_witness :
    (c1Issue ∈ (analyze_patterns_core findPat (str "snowflake")).issues
      ∧ c1Issue.type = str "propaganda_technique")
    ∧ c1Issue.spans = [] :=
  ⟨⟨by decide, by decide⟩,
    c1_propaganda_spans_empty findPat (str "snowflake") c1Issue (by decide) (by decide)⟩

/-! ### C3: the claim length filter -/

theorem mem_insertByStart {c x : Claim} : ∀ l, x ∈ insertByStart c l → x = c ∨ x ∈ l := by
  intro l
  induction l with
  | nil => intro h; exact Or.inl (List.mem_singleton.mp h)
  | cons d rest ih =>
    intro h
    unfold insertByStart at h
    split at h
    · rcases List.mem_cons.mp h with h2 | h2
      · exact Or.inr (h2 ▸ List.mem_cons_self d rest)
      · rcases ih h2 with h3 | h3
        · exact Or.inl h3
        · exact Or.inr (List.mem_cons_of_mem _ h3)
    · rcases List.mem_cons.mp h with h2 | h2
      · exact Or.inl h2
      · exact Or.inr h2

theorem mem_sortByStart_aux {x : Claim} :
    ∀ (l : List Claim) (acc : List Claim),
      x ∈ l.foldl (fun a c => insertByStart c a) acc → x ∈ acc ∨ x ∈ l := by
  intro l
  induction l with
  | nil => intro acc h; exact Or.inl h
  | cons c rest ih =>
    intro acc h
    rw [List.foldl_cons] at h
    rcases ih (insertByStart c acc) h with h2 | h2
    · rcases mem_insertByStart acc h2 with h3 | h3
      · exact Or.inr (h3 ▸ List.mem_cons_self c rest)
      · exact Or.inl h3
    · exact Or.inr (List.mem_cons_of_mem _ h2)

theorem mem_sortByStart {x : Claim} (l : List Claim) (h : x ∈ sortByStart l) : x ∈ l := by
  rcases mem_sortByStart_aux l [] h with h2 | h2
  · cases h2
  · exact h2

theorem mem_dedupClaims_aux {x : Claim} :
    ∀ (l : List Claim) (acc : List Claim),
      x ∈ l.foldl (fun acc c =>
        match acc.getLast? with
        | none => acc ++ [c]
        | some last =>
          if c.start ≥ last.stop then acc ++ [c]
          else if c.stop - c.start > last.stop - last.start then acc.dropLast ++ [c]
          else acc) acc → x ∈ acc ∨ x ∈ l := by
  intro l
  induction l with
  | nil => intro acc h; exact Or.inl h
  | cons c rest ih =>
    intro acc h
    rw [List.foldl_cons] at h
    rcases ih _ h with h2 | h2
    · have h3 : x ∈ acc ∨ x = c := by
        revert h2
        cases hL : acc.getLast? with
        | none =>
          intro h2
          dsimp only at h2
          rcases List.mem_append.mp h2 with h4 | h4
          · exact Or.inl h4
          · exact Or.inr (List.mem_singleton.mp h4)
        | some last =>
          intro h2
          dsimp only at h2
          split at h2
          · rcases List.mem_append.mp h2 with h4 | h4
            · exact Or.inl h4
            · exact Or.inr (List.mem_singleton.mp h4)
          · split at h2
            · rcases List.mem_append.mp h2 with h4 | h4
              · exact Or.inl (List.dropLast_subset _ h4)
              · exact Or.inr (List.mem_singleton.mp h4)
            · exact Or.inl h2
      rcases h3 with h4 | h4
      · exact Or.inl h4
      · exact Or.inr (h4 ▸ List.mem_cons_self c rest)
    · exact Or.inr (List.mem_cons_of_mem _ h2)

theorem mem_dedupClaims {x : Claim} (l : List Claim) (h : x ∈ dedupClaims l) : x ∈ l := by
  rcases mem_dedupClaims_aux l [] h with h2 | h2
  · cases h2
  · exact h2

/-- C3 (amended): during claim extraction a candidate claim passes the length
filter **iff** its stripped text is strictly longer than 10 characters, so a
candidate of exactly 10 characters is *discarded* (the source tests
`len(claim_text) > 10`, not `>= 10`); consequently every claim surviving
extraction is longer than 10 characters.  (Overlap deduplication may discard
further, longer candidates — that pass is separate from the length filter.) -/
theorem c3_length_filter (text : Str) :
    (∀ c : Claim, c ∈ (claimCandidates text).filter (fun c => c.text.length > 10)
      ↔ (c ∈ claimCandidates text ∧ 10 < c.text.length))
    ∧ (∀ c ∈ extract_claims text, 10 < c.text.length) := by
  constructor
  · intro c
    simp [List.mem_filter]
  · intro c hc
    have h1 := mem_sortByStart _ (mem_dedupClaims _ hc)
    have h2 := (List.mem_filter.mp h1).2
    simpa using h2

/-- C3, counterexample to the claim as stated: on the text `"xx causes."` the
causal claim pattern matches the whole 10-character text, the stripped
candidate is exactly 10 characters long, and it is discarded. -/
theorem c3_counterexample :
    claimCandidates (str "xx causes.") = [{ text := str "xx causes.", start := 0, stop := 10 }]
    ∧ (str "xx causes.").length = 10
    ∧ extract_claims (str "xx causes.") = [] :=
  ⟨by decide, by decide, by decide⟩

theorem c3_length_filter_witness :
    ({ text := str "aaa causes.", start := 0, stop := 11 } : Claim)
        ∈ extract_claims (str "aaa causes.")
    ∧ 10 < (str "aaa causes.").length :=
  ⟨by decide, (c3_length_filter (str "aaa causes.")).2
    { text := str "aaa causes.", start := 0, stop := 11 } (by decide)⟩

/-! ### C2: local claims database matching -/

/-- The Jaccard similarity of a fixed word set against one database entry. -/
def simW (ws : List Str) (e : DbClaim) : ℚ := jaccard ws (wordSetOf e.claim_text)

theorem jaccard_left_nil (dbws : List Str) : jaccard [] dbws = 0 := by
  unfold jaccard
  dsimp only
  split
  · simp
  · rfl

theorem jaccard_right_nil (ws : List Str) : jaccard ws [] = 0 := by
  unfold jaccard
  dsimp only
  have h1 : ws.filter (fun w => List.contains ([] : List Str) w) = [] :=
    List.filter_eq_nil_iff.mpr (fun a _ h => Bool.noConfusion (show false = true from h))
  rw [h1]
  split
  · simp
  · rfl

theorem localStep_skip {ws : List Str} {acc : Option DbClaim × ℚ} {e : DbClaim}
    (h : ws.isEmpty || (wordSetOf e.claim_text).isEmpty) : localStep ws acc e = acc := by
  unfold localStep
  dsimp only
  rw [if_pos h]

theorem localStep_update {ws : List Str} {acc : Option DbClaim × ℚ} {e : DbClaim}
    (h1 : ¬(ws.isEmpty || (wordSetOf e.claim_text).isEmpty))
    (h2 : jaccard ws (wordSetOf e.claim_text) > acc.2
      ∧ jaccard ws (wordSetOf e.claim_text) > 7/10) :
    localStep ws acc e = (some e, simW ws e) := by
  unfold localStep
  dsimp only
  rw [if_neg h1, if_pos h2]
  rfl

theorem localStep_keep {ws : List Str} {acc : Option DbClaim × ℚ} {e : DbClaim}
    (h1 : ¬(ws.isEmpty || (wordSetOf e.claim_text).isEmpty))
    (h2 : ¬(jaccard ws (wordSetOf e.claim_text) > acc.2
      ∧ jaccard ws (wordSetOf e.claim_text) > 7/10)) :
    localStep ws acc e = acc := by
  unfold localStep
  dsimp only
  rw [if_neg h1, if_neg h2]

theorem localBest_spec (ws : List Str) :
    ∀ (db : List DbClaim) (acc : Option DbClaim × ℚ),
      (db.foldl (localStep ws) acc = acc
        ∧ ∀ e ∈ db, ¬(simW ws e > acc.2 ∧ simW ws e > 7/10))
      ∨ ∃ pre e post, db = pre ++ e :: post
          ∧ db.foldl (localStep ws) acc = (some e, simW ws e)
          ∧ simW ws e > 7/10 ∧ simW ws e > acc.2
          ∧ (∀ e2 ∈ pre, simW ws e2 < simW ws e)
          ∧ (∀ e2 ∈ db, simW ws e2 ≤ simW ws e) := by
  intro db
  induction db with
  | nil =>
    intro acc
    left
    exact ⟨rfl, by intro e h; cases h⟩
  | cons e rest ih =>
    intro acc
    rw [List.foldl_cons]
    by_cases hskip : ws.isEmpty || (wordSetOf e.claim_text).isEmpty
    · -- skipped entry: its similarity is 0
      have hzero : simW ws e = 0 := by
        unfold simW
        rcases Bool.or_eq_true_iff.mp hskip with h | h
        · rw [List.isEmpty_iff.mp h, jaccard_left_nil]
        · rw [List.isEmpty_iff.mp h, jaccard_right_nil]
      rw [localStep_skip hskip]
      rcases ih acc with ⟨hout, hnone⟩ | ⟨pre, e', post, hdb, hout, h7, hgt, hpre, hall⟩
      · left
        refine ⟨hout, ?_⟩
        intro e2 he2
        rcases List.mem_cons.mp he2 with h | h
        · subst h
          rw [hzero]
          intro hco
          have := hco.2
          norm_num at this
        · exact hnone e2 h
      · right
        refine ⟨e :: pre, e', post, by rw [hdb, List.cons_append], hout, h7, hgt, ?_, ?_⟩
        · intro e2 he2
          rcases List.mem_cons.mp he2 with h | h
          · subst h
            rw [hzero]
            linarith
          · exact hpre e2 h
        · intro e2 he2
          rcases List.mem_cons.mp he2 with h | h
          · subst h
            rw [hzero]
            linarith
          · exact hall e2 (hdb ▸ h)
    · by_cases hupd : jaccard ws (wordSetOf e.claim_text) > acc.2
          ∧ jaccard ws (wordSetOf e.claim_text) > 7/10
      · rw [localStep_update hskip hupd]
        rcases ih (some e, simW ws e) with ⟨hout, hnone⟩
          | ⟨pre, e', post, hdb, hout, h7, hgt, hpre, hall⟩
        · right
          refine ⟨[], e, rest, ?_, ?_, ?_, ?_, ?_, ?_⟩
          · simp
          · exact hout
          · exact hupd.2
          · exact hupd.1
          · intro e2 h
            cases h
          intro e2 he2
          rcases List.mem_cons.mp he2 with h | h
          · subst h; exact le_refl _
          · have hne := hnone e2 h
            by_cases hle : simW ws e2 ≤ simW ws e
            · exact hle
            · push_neg at hle
              exfalso
              apply hne
              refine ⟨hle, ?_⟩
              calc (7/10 : ℚ) < simW ws e := hupd.2
                _ < simW ws e2 := hle
        · right
          have hgt2 : simW ws e < simW ws e' := hgt
          refine ⟨e :: pre, e', post, by rw [hdb, List.cons_append], hout, h7, ?_, ?_, ?_⟩
          · calc acc.2 < simW ws e := hupd.1
              _ < simW ws e' := hgt2
          · intro e2 he2
            rcases List.mem_cons.mp he2 with h | h
            · subst h; exact hgt2
            · exact hpre e2 h
          · intro e2 he2
            rcases List.mem_cons.mp he2 with h | h
            · subst h; exact le_of_lt hgt2
            · exact hall e2 (hdb ▸ h)
      · rw [localStep_keep hskip hupd]
        rcases ih acc with ⟨hout, hnone⟩ | ⟨pre, e', post, hdb, hout, h7, hgt, hpre, hall⟩
        · left
          refine ⟨hout, ?_⟩
          intro e2 he2
          rcases List.mem_cons.mp he2 with h | h
          · subst h; exact hupd
          · exact hnone e2 h
        · right
          have hlt : simW ws e < simW ws e' := by
            rcases not_and_or.mp hupd with h | h
            · push_neg at h
              calc simW ws e ≤ acc.2 := h
                _ < simW ws e' := hgt
            · push_neg at h
              calc simW ws e ≤ 7/10 := h
                _ < simW ws e' := h7
          refine ⟨e :: pre, e', post, by rw [hdb, List.cons_append], hout, h7, hgt, ?_, ?_⟩
          · intro e2 he2
            rcases List.mem_cons.mp he2 with h | h
            · subst h; exact hlt
            · exact hpre e2 h
          · intro e2 he2
            rcases List.mem_cons.mp he2 with h | h
            · subst h; exact le_of_lt hlt
            · exact hall e2 (hdb ▸ h)

/-- The spec's worked example: the local claims database and input text. -/
def c2ExampleDb : List DbClaim :=
  [{ claim_text := str "the sky is green", verified := false,
     source_url := str "", published_date := str "" }]

def c2ExampleText : Str := str "Scientists discovered that the sky is green today."

/-- C2 (amended): on the spec's worked example `checkFacts` produces **no**
`false_claim` Issue and **no** Source — the single extracted claim's Jaccard
similarity to the database entry is 1/2, which does not exceed the 0.7
threshold.  In general a local-database entry matches a claim only when its
Jaccard word-set similarity exceeds 0.7; the best match wins, with ties going
to the first entry encountered (earlier entries of equal similarity are never
displaced, so every entry before the chosen one has strictly smaller
similarity). -/
theorem c2_local_db_matching :
    ((check_facts c2ExampleDb (str "") ⟨[], []⟩ c2ExampleText).issues = []
      ∧ (check_facts c2ExampleDb (str "") ⟨[], []⟩ c2ExampleText).sources = []
      ∧ jaccard (wordSetOf c2ExampleText) (wordSetOf (str "the sky is green")) = 1/2)
    ∧ ∀ (db : List DbClaim) (claim : Str),
        (check_against_local_db db claim).found = true →
        ∃ pre e post, db = pre ++ e :: post
          ∧ (check_against_local_db db claim).verified = e.verified
          ∧ (check_against_local_db db claim).confidence = simW (wordSetOf claim) e
          ∧ simW (wordSetOf claim) e > 7/10
          ∧ (∀ e2 ∈ pre, simW (wordSetOf claim) e2 < simW (wordSetOf claim) e)
          ∧ (∀ e2 ∈ db, simW (wordSetOf claim) e2 ≤ simW (wordSetOf claim) e) := by
  constructor
  · exact ⟨by decide, by decide, by decide⟩
  · intro db claim hfound
    unfold check_against_local_db at hfound ⊢
    unfold localBest at hfound ⊢
    rcases localBest_spec (wordSetOf claim) db (none, 0) with ⟨hout, _⟩
      | ⟨pre, e, post, hdb, hout, h7, _, hpre, hall⟩
    · rw [hout] at hfound
      cases hfound
    · rw [hout] at hfound ⊢
      exact ⟨pre, e, post, hdb, rfl, rfl, h7, hpre, hall⟩

/-- C2, counterexample to the claim as stated: on the worked example the
fact checker finds the claim sentence but reports no issue and no source,
because the Jaccard similarity (1/2) is below the threshold. -/
theorem c2_counterexample :
    (extract_claims c2ExampleText).map (fun c => c.text) = [c2ExampleText]
    ∧ jaccard (wordSetOf c2ExampleText) (wordSetOf (str "the sky is green")) = 1/2
    ∧ ¬((check_facts c2ExampleDb (str "") ⟨[], []⟩ c2ExampleText).issues.length = 1)
    ∧ ¬((check_facts c2ExampleDb (str "") ⟨[], []⟩ c2ExampleText).sources.length = 1) :=
  ⟨by decide, by decide, by decide, by decide⟩

theorem c2_local_db_matching_witness :
    (check_against_local_db c2ExampleDb (str "The sky is green!")).found = true
    ∧ ∃ pre e post, c2ExampleDb = pre ++ e :: post
        ∧ (check_against_local_db c2ExampleDb (str "The sky is green!")).verified = e.verified
        ∧ (check_against_local_db c2ExampleDb (str "The sky is green!")).confidence
            = simW (wordSetOf (str "The sky is green!")) e
        ∧ simW (wordSetOf (str "The sky is green!")) e > 7/10
        ∧ (∀ e2 ∈ pre, simW (wordSetOf (str "The sky is green!")) e2
            < simW (wordSetOf (str "The sky is green!")) e)
        ∧ (∀ e2 ∈ c2ExampleDb, simW (wordSetOf (str "The sky is green!")) e2
            ≤ simW (wordSetOf (str "The sky is green!")) e) :=
  ⟨by decide, c2_local_db_matching.2 c2ExampleDb (str "The sky is green!") (by decide)⟩

/-- C7: with at least 3 political term matches in total, `_detect_political_bias`
returns leaning "left" (resp. "right") with confidence
min(0.9, 0.5 + (count gap / total) * 0.5) when one side strictly exceeds twice
the other, "center-left"/"center-right" with confidence 0.6 when the relative
gap exceeds 0.3, and "center" with confidence 0.7 (spans = both sides)
otherwise. -/
theorem c7_political_bias (text : Str) (lc rc : ℕ)
    (hl : lc = (leftMatches text).length) (hr : rc = (rightMatches text).length)
    (h3 : 3 ≤ lc + rc) :
    (lc > rc * 2 → detect_political_bias text =
      { leaning := str "left"
        confidence := min (9/10) (1/2 + ((lc : ℚ) - (rc : ℚ)) / ((lc + rc : ℕ) : ℚ) * (1/2))
        spans := leftMatches text })
    ∧ (rc > lc * 2 → detect_political_bias text =
      { leaning := str "right"
        confidence := min (9/10) (1/2 + ((rc : ℚ) - (lc : ℚ)) / ((lc + rc : ℕ) : ℚ) * (1/2))
        spans := rightMatches text })
    ∧ (¬ lc > rc * 2 → ¬ rc > lc * 2 →
        |(lc : ℚ) - (rc : ℚ)| / ((lc + rc : ℕ) : ℚ) > 3/10 →
        (lc > rc → detect_political_bias text =
          { leaning := str "center-left", confidence := 6/10, spans := leftMatches text })
        ∧ (¬ lc > rc → detect_political_bias text =
          { leaning := str "center-right", confidence := 6/10, spans := rightMatches text }))
    ∧ (¬ lc > rc * 2 → ¬ rc > lc * 2 →
        ¬ |(lc : ℚ) - (rc : ℚ)| / ((lc + rc : ℕ) : ℚ) > 3/10 →
        detect_political_bias text =
          { leaning := str "center", confidence := 7/10
            spans := leftMatches text ++ rightMatches text }) := by
  subst hl hr
  have hpos : (leftMatches text).length + (rightMatches text).length > 0 := by omega
  unfold detect_political_bias
  dsimp only
  rw [if_pos hpos, if_pos h3]
  simp only [qmin_eq, qabs_eq]
  refine ⟨?_, ?_, ?_, ?_⟩
  · intro hgt
    rw [if_pos hgt]
  · intro hgt
    have h1 : ¬ (leftMatches text).length > (rightMatches text).length * 2 := by omega
    rw [if_neg h1, if_pos hgt]
  · intro h1 h2 habs
    rw [if_neg h1, if_neg h2, if_pos habs]
    constructor
    · intro hlr
      rw [if_pos hlr]
    · intro hlr
      rw [if_neg hlr]
  · intro h1 h2 habs
    rw [if_neg h1, if_neg h2, if_neg habs]

/-- A text with 4 left-leaning term matches and 1 right-leaning term match. -/
def c7Text : Str := str "progressive liberal diversity equity conservative"

theorem c7_political_bias_witness :
    (detect_political_bias c7Text =
      { leaning := str "left"
        confidence := min (9/10)
          (1/2 + (((4 : ℕ) : ℚ) - ((1 : ℕ) : ℚ)) / (((4 + 1 : ℕ)) : ℚ) * (1/2))
        spans := leftMatches c7Text })
    ∧ min (9/10) (1/2 + (((4 : ℕ) : ℚ) - ((1 : ℕ) : ℚ)) / (((4 + 1 : ℕ)) : ℚ) * (1/2))
        = 4/5 :=
  ⟨(c7_political_bias c7Text 4 1 (by decide) (by decide) (by decide)).1 (by decide),
   by norm_num⟩

/-- The randomness-free projection of the fact checker's loop state. -/
def FactState.core (st : FactState) : List Issue × List SourceRec × Nat × Nat :=
  (st.issues, st.sources, st.verified, st.refuted)

theorem processClaim_core (db : List DbClaim) (fullText : Str)
    (s t : FactState) (c : Claim) (h : s.core = t.core) :
    (processClaim db (str "") fullText s c).core
      = (processClaim db (str "") fullText t c).core := by
  simp only [FactState.core, Prod.mk.injEq] at h
  obtain ⟨h1, h2, h3, h4⟩ := h
  unfold processClaim
  dsimp only
  by_cases hf : (check_against_local_db db c.text).found
  · rw [if_pos hf, if_pos hf]
    cases hv : (check_against_local_db db c.text).verified <;>
      simp [FactState.core, h1, h2, h3, h4]
  · have hne : ¬ (str "" ≠ []) := fun hh => hh rfl
    rw [if_neg hf, if_neg hf, if_neg hne, if_neg hne]
    simp only [FactState.core, Prod.mk.injEq]
    exact ⟨h1, h2, h3, h4⟩

theorem foldl_processClaim_core (db : List DbClaim) (fullText : Str) :
    ∀ (claims : List Claim) (s t : FactState), s.core = t.core →
      (claims.foldl (processClaim db (str "") fullText) s).core
        = (claims.foldl (processClaim db (str "") fullText) t).core := by
  intro claims
  induction claims with
  | nil => intro s t h; exact h
  | cons c rest ih =>
    intro s t h
    simp only [List.foldl_cons]
    exact ih _ _ (processClaim_core db fullText s t c h)

theorem check_facts_rng_invariant (db : List DbClaim) (rng₁ rng₂ : Rng) (text : Str) :
    check_facts db (str "") rng₁ text = check_facts db (str "") rng₂ text := by
  unfold check_facts
  dsimp only
  by_cases he : (extract_claims text).isEmpty
  · rw [if_pos he, if_pos he]
  · rw [if_neg he, if_neg he]
    have h := foldl_processClaim_core db text (extract_claims text)
      { issues := [], sources := [], verified := 0, refuted := 0, rng := rng₁ }
      { issues := [], sources := [], verified := 0, refuted := 0, rng := rng₂ } rfl
    simp only [FactState.core, Prod.mk.injEq] at h
    obtain ⟨h1, h2, h3, h4⟩ := h
    rw [h1, h2, h3, h4]

/-- C9: every detector is a pure function of the text, so running it twice
gives identical issues and metadata; the only impure collaborator is the
external-API simulation's random fallback, and with an empty API key that
fallback is never consulted, so `check_facts` and the whole `analyze_text`
pipeline give the same result for any two random streams. -/
theorem c9_deterministic (db : List DbClaim) (rng₁ rng₂ : Rng) (text : Str)
    (options : Option Options) :
    detect_bias text = detect_bias text
    ∧ detect_manipulation text = detect_manipulation text
    ∧ analyze_patterns text = analyze_patterns text
    ∧ check_facts db (str "") rng₁ text = check_facts db (str "") rng₂ text
    ∧ analyze_text db (str "") rng₁ text options
        = analyze_text db (str "") rng₂ text options := by
  refine ⟨rfl, rfl, rfl, check_facts_rng_invariant db rng₁ rng₂ text, ?_⟩
  unfold analyze_text
  dsimp only
  rw [check_facts_rng_invariant db rng₁ rng₂ text]

/-! ### C8: span bounds -/

theorem termEndFrom_bounds (text : Str) :
    ∀ (fuel q e : Nat), termEndFrom text fuel q = some e → q ≤ e ∧ e ≤ text.length := by
  intro fuel
  induction fuel with
  | zero => intro q e h; simp [termEndFrom] at h
  | succ n ih =>
    intro q e h
    unfold termEndFrom at h
    cases hge : text[q]? with
    | none =>
      rw [hge] at h
      dsimp only at h
      cases h
    | some c =>
      rw [hge] at h
      dsimp only at h
      have hqlt : q < text.length := (List.getElem?_eq_some.mp hge).1
      split at h
      · cases h
        omega
      · split at h
        · cases h
        · have := ih (q + 1) e h
          omega

theorem termEnd_bounds (text : Str) (q e : Nat) (h : termEnd text q = some e) :
    q ≤ e ∧ e ≤ text.length := by
  unfold termEnd at h
  exact termEndFrom_bounds text (text.length + 1) q e h

theorem sentKwAux_bounds (alts : List RAlt) (text : Str) :
    ∀ (fuel q e : Nat), q ≤ text.length → sentKwAux alts text fuel q = some e →
      q ≤ e ∧ e ≤ text.length := by
  intro fuel
  induction fuel with
  | zero => intro q e _ h; simp [sentKwAux] at h
  | succ n ih =>
    intro q e hq h
    unfold sentKwAux at h
    cases hmg : matchGroups text [alts] q with
    | some e1 =>
      rw [hmg] at h
      dsimp only at h
      have h1 := matchGroups_bounds hq hmg
      have h2 := termEnd_bounds text e1 e h
      omega
    | none =>
      rw [hmg] at h
      dsimp only at h
      cases hge : text[q]? with
      | some c =>
        rw [hge] at h
        dsimp only at h
        split at h
        · cases h
        · have hqlt : q < text.length := (List.getElem?_eq_some.mp hge).1
          have := ih (q + 1) e hqlt h
          omega
      | none =>
        rw [hge] at h
        dsimp only at h
        cases h

theorem findSentenceKeyword_bounds (alts : List RAlt) (text : Str) :
    ∀ m ∈ findSentenceKeyword alts text, m.1 ≤ m.2 ∧ m.2 ≤ text.length := by
  intro m hm
  unfold findSentenceKeyword at hm
  have h : ∀ p e, p ≤ text.length → sentKwTryAt alts text p = some e →
      p ≤ e ∧ e ≤ text.length := by
    intro p e hp hh
    exact sentKwAux_bounds alts text (text.length + 1) p e hp hh
  exact scan_bounds h m.1 m.2 hm

theorem statE2_bounds (text : Str) (e1 : Nat) (h : e1 ≤ text.length) :
    e1 ≤ statE2 text e1 ∧ statE2 text e1 ≤ text.length := by
  unfold statE2
  split
  · next hc =>
    have hdot : text[e1]? = some '.' := eq_of_beq ((Bool.and_eq_true ..).mp hc).1
    have hlt : e1 < text.length := (List.getElem?_eq_some.mp hdot).1
    have := runLen_le Char.isDigit text (e1 + 1) hlt
    omega
  · omega

theorem statE3_bounds (text : Str) (e2 : Nat) (h : e2 ≤ text.length) :
    e2 ≤ statE3 text e2 ∧ statE3 text e2 ≤ text.length := by
  unfold statE3
  split
  · next hc =>
    have hpc : text[e2 + runLen isSpaceChar text e2]? = some '%' := eq_of_beq hc
    have hlt : e2 + runLen isSpaceChar text e2 < text.length :=
      (List.getElem?_eq_some.mp hpc).1
    omega
  · omega

theorem statNum_bounds (text : Str) (p : Nat) (hp : p ≤ text.length) :
    p ≤ statNum text p ∧ statNum text p ≤ text.length := by
  have a1 : p + runLen Char.isDigit text p ≤ text.length := runLen_le _ text p hp
  have a2 := statE2_bounds text (p + runLen Char.isDigit text p) a1
  have a3 := statE3_bounds text (statE2 text (p + runLen Char.isDigit text p)) a2.2
  have a4 : statE3 text (statE2 text (p + runLen Char.isDigit text p))
      + runLen isSpaceChar text (statE3 text (statE2 text (p + runLen Char.isDigit text p)))
      ≤ text.length := runLen_le _ text _ a3.2
  unfold statNum
  omega

theorem statTryAt_bounds (text : Str) :
    ∀ p e, p ≤ text.length → statTryAt text p = some e → p ≤ e ∧ e ≤ text.length := by
  intro p e hp h
  unfold statTryAt at h
  split at h
  · cases h
  · cases hmg : matchGroups text [statUnits] (statNum text p) with
    | some e5 =>
      rw [hmg] at h
      dsimp only at h
      have hn := statNum_bounds text p hp
      have h1 := matchGroups_bounds hn.2 hmg
      have h2 := termEnd_bounds text e5 e h
      omega
    | none =>
      rw [hmg] at h
      dsimp only at h
      cases h

theorem findStatClaims_bounds (text : Str) :
    ∀ m ∈ findStatClaims text, m.1 ≤ m.2 ∧ m.2 ≤ text.length := by
  intro m hm
  unfold findStatClaims at hm
  exact scan_bounds (statTryAt_bounds text) m.1 m.2 hm

theorem claimCandidates_bounds (text : Str) :
    ∀ c ∈ claimCandidates text, c.start ≤ c.stop ∧ c.stop ≤ text.length := by
  intro c hc
  unfold claimCandidates at hc
  obtain ⟨m, hm, hEq⟩ := List.mem_map.mp hc
  subst hEq
  dsimp only
  rcases List.mem_append.mp hm with h123 | h4
  · rcases List.mem_append.mp h123 with h12 | h3
    · rcases List.mem_append.mp h12 with h1 | h2
      · exact findStatClaims_bounds text m h1
      · exact findSentenceKeyword_bounds claimPattern2Alts text m h2
    · exact findSentenceKeyword_bounds claimPattern3Alts text m h3
  · exact findSentenceKeyword_bounds claimPattern4Alts text m h4

theorem extract_claims_bounds (text : Str) :
    ∀ c ∈ extract_claims text, c.start ≤ c.stop ∧ c.stop ≤ text.length := by
  intro c hc
  unfold extract_claims at hc
  have h1 := mem_dedupClaims _ hc
  have h2 := mem_sortByStart _ h1
  have h3 := (List.mem_filter.mp h2).1
  exact claimCandidates_bounds text c h3

theorem processClaim_spans (db : List DbClaim) (apiKey fullText : Str)
    (st : FactState) (c : Claim)
    (hst : ∀ i ∈ st.issues, ∀ sp ∈ i.spans, sp.1 ≤ sp.2 ∧ sp.2 ≤ fullText.length)
    (hc : c.start ≤ c.stop ∧ c.stop ≤ fullText.length) :
    ∀ i ∈ (processClaim db apiKey fullText st c).issues,
      ∀ sp ∈ i.spans, sp.1 ≤ sp.2 ∧ sp.2 ≤ fullText.length := by
  intro i hi
  unfold processClaim at hi
  dsimp only at hi
  split at hi
  · split at hi
    · rcases List.mem_append.mp hi with h | h
      · exact hst i h
      · have he := List.mem_singleton.mp h
        subst he
        intro sp hsp
        have hsp2 := List.mem_singleton.mp hsp
        subst hsp2
        exact hc
    · exact hst i hi
  · split at hi
    · split at hi
      · split at hi
        · rcases List.mem_append.mp hi with h | h
          · exact hst i h
          · have he := List.mem_singleton.mp h
            subst he
            intro sp hsp
            have hsp2 := List.mem_singleton.mp hsp
            subst hsp2
            exact hc
        · exact hst i hi
      · split at hi
        · rcases List.mem_append.mp hi with h | h
          · exact hst i h
          · have he := List.mem_singleton.mp h
            subst he
            intro sp hsp
            have hsp2 := List.mem_singleton.mp hsp
            subst hsp2
            exact hc
        · exact hst i hi
    · exact hst i hi

theorem factFold_spans (db : List DbClaim) (apiKey fullText : Str) :
    ∀ (claims : List Claim) (st : FactState),
      (∀ c ∈ claims, c.start ≤ c.stop ∧ c.stop ≤ fullText.length) →
      (∀ i ∈ st.issues, ∀ sp ∈ i.spans, sp.1 ≤ sp.2 ∧ sp.2 ≤ fullText.length) →
      ∀ i ∈ (claims.foldl (processClaim db apiKey fullText) st).issues,
        ∀ sp ∈ i.spans, sp.1 ≤ sp.2 ∧ sp.2 ≤ fullText.length := by
  intro claims
  induction claims with
  | nil => intro st _ hst i hi; exact hst i hi
  | cons c rest ih =>
    intro st hcl hst i hi
    rw [List.foldl_cons] at hi
    refine ih _ (fun c2 h2 => hcl c2 (List.mem_cons_of_mem c h2)) ?_ i hi
    exact processClaim_spans db apiKey fullText st c hst (hcl c (List.mem_cons_self c rest))

theorem check_facts_spans (db : List DbClaim) (apiKey : Str) (rng : Rng) (text : Str) :
    ∀ i ∈ (check_facts db apiKey rng text).issues,
      ∀ sp ∈ i.spans, sp.1 ≤ sp.2 ∧ sp.2 ≤ text.length := by
  intro i hi
  unfold check_facts at hi
  dsimp only at hi
  split at hi
  · cases hi
  · exact factFold_spans db apiKey text (extract_claims text) _
      (extract_claims_bounds text) (fun i2 h2 => absurd h2 (List.not_mem_nil i2)) i hi

theorem leftMatches_bounds (text : Str) :
    ∀ m ∈ leftMatches text, m.1 ≤ m.2 ∧ m.2 ≤ text.length := by
  intro m hm
  unfold leftMatches at hm
  obtain ⟨t, _, hmem⟩ := List.mem_flatMap.mp hm
  exact findWholeWord_bounds t text m hmem

theorem rightMatches_bounds (text : Str) :
    ∀ m ∈ rightMatches text, m.1 ≤ m.2 ∧ m.2 ≤ text.length := by
  intro m hm
  unfold rightMatches at hm
  obtain ⟨t, _, hmem⟩ := List.mem_flatMap.mp hm
  exact findWholeWord_bounds t text m hmem

theorem political_bias_spans (text : Str) :
    ∀ sp ∈ (detect_political_bias text).spans, sp.1 ≤ sp.2 ∧ sp.2 ≤ text.length := by
  intro sp hsp
  unfold detect_political_bias at hsp
  dsimp only at hsp
  split at hsp
  · split at hsp
    · split at hsp
      · exact leftMatches_bounds text sp hsp
      · split at hsp
        · exact rightMatches_bounds text sp hsp
        · split at hsp
          · split at hsp
            · exact leftMatches_bounds text sp hsp
            · exact rightMatches_bounds text sp hsp
          · rcases List.mem_append.mp hsp with h | h
            · exact leftMatches_bounds text sp h
            · exact rightMatches_bounds text sp h
    · split at hsp
      · exact leftMatches_bounds text sp hsp
      · split at hsp
        · exact rightMatches_bounds text sp hsp
        · cases hsp
  · cases hsp

theorem detectLoadedLanguage_spans (text : Str) :
    ∀ i ∈ detectLoadedLanguage text, ∀ sp ∈ i.spans, sp.1 ≤ sp.2 ∧ sp.2 ≤ text.length := by
  intro i hi
  unfold detectLoadedLanguage at hi
  obtain ⟨phrase, _, hmem⟩ := List.mem_flatMap.mp hi
  obtain ⟨m, hm, hEq⟩ := List.mem_map.mp hmem
  subst hEq
  intro sp hsp
  have := List.mem_singleton.mp hsp
  rw [this]
  exact findWholeWord_bounds phrase text m hm

theorem detectGeneralizations_spans (text : Str) :
    ∀ i ∈ detectGeneralizations text, ∀ sp ∈ i.spans, sp.1 ≤ sp.2 ∧ sp.2 ≤ text.length := by
  intro i hi
  unfold detectGeneralizations at hi
  obtain ⟨phrase, _, hmem⟩ := List.mem_flatMap.mp hi
  obtain ⟨m, hm, hEq⟩ := List.mem_filterMap.mp hmem
  dsimp only at hEq
  split at hEq
  · cases hEq
  · have := Option.some.inj hEq
    subst this
    intro sp hsp
    have := List.mem_singleton.mp hsp
    rw [this]
    exact findWholeWord_bounds phrase text m hm

theorem detectExaggerations_spans (text : Str) :
    ∀ i ∈ detectExaggerations text, ∀ sp ∈ i.spans, sp.1 ≤ sp.2 ∧ sp.2 ≤ text.length := by
  intro i hi
  unfold detectExaggerations at hi
  obtain ⟨phrase, _, hmem⟩ := List.mem_flatMap.mp hi
  obtain ⟨m, hm, hEq⟩ := List.mem_map.mp hmem
  subst hEq
  intro sp hsp
  have := List.mem_singleton.mp hsp
  rw [this]
  exact findWholeWord_bounds phrase text m hm

theorem detectSubjectiveLanguage_spans (text : Str) :
    ∀ i ∈ detectSubjectiveLanguage text, ∀ sp ∈ i.spans, sp.1 ≤ sp.2 ∧ sp.2 ≤ text.length := by
  intro i hi
  unfold detectSubjectiveLanguage at hi
  obtain ⟨phrase, _, hmem⟩ := List.mem_flatMap.mp hi
  obtain ⟨m, hm, hEq⟩ := List.mem_filterMap.mp hmem
  dsimp only at hEq
  split at hEq
  · cases hEq
  · have := Option.some.inj hEq
    subst this
    intro sp hsp
    have := List.mem_singleton.mp hsp
    rw [this]
    exact findWholeWord_bounds phrase text m hm

theorem detect_bias_spans (text : Str) :
    ∀ i ∈ (detect_bias text).issues, ∀ sp ∈ i.spans, sp.1 ≤ sp.2 ∧ sp.2 ≤ text.length := by
  intro i hi
  unfold detect_bias at hi
  dsimp only at hi
  rcases List.mem_append.mp hi with h1234 | hpol
  · rcases List.mem_append.mp h1234 with h123 | hsubj
    · rcases List.mem_append.mp h123 with h12 | hexagg
      · rcases List.mem_append.mp h12 with hload | hgen
        · exact detectLoadedLanguage_spans text i hload
        · exact detectGeneralizations_spans text i hgen
      · exact detectExaggerations_spans text i hexagg
    · exact detectSubjectiveLanguage_spans text i hsubj
  · have he := List.mem_singleton.mp (mem_ite_nil_right hpol)
    subst he
    intro sp hsp
    exact political_bias_spans text sp hsp

theorem emotion_fold_spans (text : Str) :
    ∀ (cats : List (Str × List Str)) (acc : List Str × List (Str × Nat) × List Issue),
      (∀ i ∈ acc.2.2, ∀ sp ∈ i.spans, sp.1 ≤ sp.2 ∧ sp.2 ≤ text.length) →
      ∀ i ∈ (cats.foldl (fun acc tc =>
          let ms := tc.2.flatMap (fun t => findWholeWord t text)
          if ms.isEmpty then acc
          else
            (acc.1 ++ [tc.1], acc.2.1 ++ [(tc.1, ms.length)],
              acc.2.2 ++ [{ type := str "emotional_trigger"
                            description := str "Emotional language (" ++ tc.1 ++ str ")"
                            confidence := 75/100
                            spans := ms }])) acc).2.2,
        ∀ sp ∈ i.spans, sp.1 ≤ sp.2 ∧ sp.2 ≤ text.length := by
  intro cats
  induction cats with
  | nil => intro acc hacc i hi; exact hacc i hi
  | cons tc rest ih =>
    intro acc hacc i hi
    rw [List.foldl_cons] at hi
    refine ih _ ?_ i hi
    dsimp only
    split
    · exact hacc
    · intro i2 hi2
      rcases List.mem_append.mp hi2 with h | h
      · exact hacc i2 h
      · have he := List.mem_singleton.mp h
        subst he
        intro sp hsp
        obtain ⟨t, _, hmem⟩ := List.mem_flatMap.mp hsp
        exact findWholeWord_bounds t text sp hmem

theorem detect_manipulation_spans (text : Str) :
    ∀ i ∈ (detect_manipulation text).issues,
      ∀ sp ∈ i.spans, sp.1 ≤ sp.2 ∧ sp.2 ≤ text.length := by
  intro i hi
  unfold detect_manipulation at hi
  dsimp only at hi
  rcases List.mem_append.mp hi with h3 | hE
  · rcases List.mem_append.mp h3 with h2 | hC
    · rcases List.mem_append.mp h2 with h1 | hF
      · rcases List.mem_append.mp h1 with h0 | hU
        · exact emotion_fold_spans text emotionalTriggers ([], [], [])
            (fun i2 hh => absurd hh (List.not_mem_nil i2)) i h0
        · have he := List.mem_singleton.mp (mem_ite_nil_left hU)
          subst he
          intro sp hsp
          obtain ⟨pt, _, hmem⟩ := List.mem_flatMap.mp hsp
          exact findSubstrCI_bounds pt text sp hmem
      · have he := List.mem_singleton.mp (mem_ite_nil_left hF)
        subst he
        intro sp hsp
        obtain ⟨pt, _, hmem⟩ := List.mem_flatMap.mp hsp
        exact findSubstrCI_bounds pt text sp hmem
    · have he := List.mem_singleton.mp (mem_ite_nil_left hC)
      subst he
      intro sp hsp
      have hmem := (List.mem_filter.mp hsp).1
      exact findAllCaps_bounds text sp hmem
  · have he := List.mem_singleton.mp (mem_ite_nil_left hE)
    subst he
    intro sp hsp
    exact findExclaim_bounds text sp hsp

theorem detect_patterns_with_bounds (text : Str) (patterns : List Pat) :
    ∀ m ∈ detect_patterns_with findPat text patterns,
      m.start ≤ m.stop ∧ m.stop ≤ text.length := by
  intro m hm
  unfold detect_patterns_with at hm
  obtain ⟨pat, _, hm2⟩ := List.mem_flatMap.mp hm
  obtain ⟨x, hx, hEq⟩ := List.mem_map.mp hm2
  subst hEq
  exact findPat_bounds pat text x hx

theorem propaganda_fold_bounds (text : Str) :
    ∀ (tps : List (Str × List Pat)) (acc : List PMatch × List (Str × Nat)),
      (∀ m ∈ acc.1, m.start ≤ m.stop ∧ m.stop ≤ text.length) →
      ∀ m ∈ (tps.foldl (fun acc tp =>
          let tm := detect_patterns_with findPat text tp.2
          if tm.isEmpty then acc else (acc.1 ++ tm, acc.2 ++ [(tp.1, tm.length)])) acc).1,
        m.start ≤ m.stop ∧ m.stop ≤ text.length := by
  intro tps
  induction tps with
  | nil => intro acc hacc m hm; exact hacc m hm
  | cons tp rest ih =>
    intro acc hacc m hm
    rw [List.foldl_cons] at hm
    refine ih _ ?_ m hm
    dsimp only
    split
    · exact hacc
    · intro m2 hm2
      rcases List.mem_append.mp hm2 with h | h
      · exact hacc m2 h
      · exact detect_patterns_with_bounds text tp.2 m2 h

theorem detect_passive_voice_bounds (text : Str) :
    ∀ sp ∈ detect_passive_voice text, sp.1 ≤ sp.2 ∧ sp.2 ≤ text.length := by
  intro sp hsp
  unfold detect_passive_voice at hsp
  obtain ⟨pt, _, hmem⟩ := List.mem_flatMap.mp hsp
  obtain ⟨x, hx, hEq⟩ := List.mem_map.mp hmem
  subst hEq
  exact findPat_bounds pt text x hx

theorem analyze_patterns_spans (text : Str) :
    ∀ i ∈ (analyze_patterns text).issues,
      ∀ sp ∈ i.spans, sp.1 ≤ sp.2 ∧ sp.2 ≤ text.length := by
  intro i hi
  unfold analyze_patterns analyze_patterns_core at hi
  dsimp only at hi
  rcases List.mem_append.mp hi with h4 | hpv
  · rcases List.mem_append.mp h4 with h3 | hhg
    · rcases List.mem_append.mp h3 with h2 | hsn
      · rcases List.mem_append.mp h2 with hcb | hpg
        · have he := List.mem_singleton.mp (mem_ite_nil_left hcb)
          subst he
          intro sp hsp
          obtain ⟨m, hm, hEq⟩ := List.mem_map.mp hsp
          subst hEq
          exact detect_patterns_with_bounds text clickbaitPatterns m hm
        · obtain ⟨tc, htc, hf⟩ := List.mem_map.mp (mem_ite_nil_left hpg)
          subst hf
          intro sp hsp
          obtain ⟨m, hm, hEq⟩ := List.mem_map.mp hsp
          have hmm := (List.mem_filter.mp hm).1
          subst hEq
          exact propaganda_fold_bounds text propagandaTechniques ([], [])
            (fun m2 hh => absurd hh (List.not_mem_nil m2)) m hmm
      · have he := List.mem_singleton.mp (mem_ite_nil_left hsn)
        subst he
        intro sp hsp
        obtain ⟨m, hm, hEq⟩ := List.mem_map.mp hsp
        subst hEq
        exact detect_patterns_with_bounds text sensationalistPatterns m hm
    · have he := List.mem_singleton.mp (mem_ite_nil_right hhg)
      subst he
      intro sp hsp
      obtain ⟨m, hm, hEq⟩ := List.mem_map.mp hsp
      subst hEq
      exact detect_patterns_with_bounds text hedgingPatterns m hm
  · have he := List.mem_singleton.mp (mem_ite_nil_right hpv)
    subst he
    intro sp hsp
    exact detect_passive_voice_bounds text sp hsp

/-- C8: for every input, every option combination and every detector, each
span `(start, end)` of each Issue in the merged result satisfies
`0 ≤ start ≤ end ≤ len(text)` (the lower bound is automatic for `Nat`
offsets). -/
theorem c8_span_bounds (db : List DbClaim) (apiKey : Str) (rng : Rng) (text : Str)
    (options : Option Options) :
    ∀ issue ∈ (analyze_text db apiKey rng text options).issues,
      ∀ sp ∈ issue.spans, sp.1 ≤ sp.2 ∧ sp.2 ≤ text.length := by
  intro i hi
  unfold analyze_text at hi
  dsimp only at hi
  rcases List.mem_append.mp hi with hbef | hp
  · rcases List.mem_append.mp hbef with hbe | hf
    · rcases List.mem_append.mp hbe with hb | he
      · exact detect_bias_spans text i (mem_ite_nil_right hb)
      · exact detect_manipulation_spans text i (mem_ite_nil_right he)
    · exact check_facts_spans db apiKey rng text i (mem_ite_nil_right hf)
  · exact analyze_patterns_spans text i (mem_ite_nil_right hp)

/-- The single issue produced on the text `"clearly"`, with its span. -/
def c8Issue : Issue :=
  { type := str "loaded_language"
    description := str "Loaded language: 'clearly'"
    confidence := 8/10
    spans := [(0, 7)] }

theorem c8_span_bounds_witness :
    (c8Issue ∈ (analyze_text [] (str "") ⟨[], []⟩ (str "clearly") none).issues
      ∧ (0, 7) ∈ c8Issue.spans)
    ∧ ((0, 7).1 ≤ (0, 7).2 ∧ (0, 7).2 ≤ (str "clearly").length) :=
  ⟨⟨by decide, by decide⟩,
   c8_span_bounds [] (str "") ⟨[], []⟩ (str "clearly") none c8Issue (by decide)
     (0, 7) (by decide)⟩

end ContentIntegrity
